import Mathlib

/-!
# Verification of the `clueless` game server

Shallow embedding of the game-state store (`src/server/src/gameStore.ts`),
the TTS delivery gate (credit-based variant), and the deliberation
scheduler (`src/server/src/deliberation.ts`), together with proofs about
the claims of the specification.

Conventions of the embedding:
* TypeScript objects become Lean structures; `Record<string, T>` becomes an
  association list `List (String × T)`.
* Thrown `Error` values become `Except GameError _`; each throw site of the
  source is one `GameError` constructor carrying the data interpolated into
  the message.  Since every throw in the source happens before any mutation
  of the store (or after only the mutations modelled explicitly), an
  `.error` result leaves the caller's state unchanged.
* `randomUUID()` and timestamps are nondeterministic inputs: fresh proposal
  ids are taken as explicit parameters, and the `id`/`createdAt`/`resolvedAt`
  fields of messages and proposals are not modelled.
* JavaScript numbers used as integers (`count`, `guessesMade`, `maxGuesses`,
  vote tallies) are modelled as `Int`; `Number.isInteger` holds by typing.
-/

namespace Clueless

/-- `type TeamColor = 'red' | 'blue'` -/
inductive TeamColor where
  | red
  | blue
deriving DecidableEq, Repr

/-- `otherTeam` from gameStore.ts. -/
def otherTeam : TeamColor → TeamColor
  | .red => .blue
  | .blue => .red

/-- Display name used in system-message interpolations. -/
def TeamColor.str : TeamColor → String
  | .red => "red"
  | .blue => "blue"

/-- `type CardOwner = TeamColor | 'neutral' | 'assassin'` -/
inductive CardOwner where
  | red
  | blue
  | neutral
  | assassin
deriving DecidableEq, Repr

/-- Coercion of a team color into a card owner (TS reuses the string). -/
def CardOwner.ofTeam : TeamColor → CardOwner
  | .red => .red
  | .blue => .blue

def CardOwner.str : CardOwner → String
  | .red => "red"
  | .blue => "blue"
  | .neutral => "neutral"
  | .assassin => "assassin"

/-- `interface Card` from types.ts. -/
structure Card where
  word : String
  owner : CardOwner
  revealed : Bool
deriving DecidableEq, Repr

/-- `type PlayerRole = 'spymaster' | 'operative'` -/
inductive PlayerRole where
  | spymaster
  | operative
deriving DecidableEq, Repr

/-- `type PlayerType = 'human' | 'llm'` -/
inductive PlayerType where
  | human
  | llm
deriving DecidableEq, Repr

/-- `interface Player` from types.ts (the prompt-only fields
`personality`, `model`, `voice` are omitted: no claim reads them). -/
structure Player where
  id : String
  name : String
  type : PlayerType
  role : PlayerRole
  team : TeamColor
deriving DecidableEq, Repr

/-- `type TurnPhase = 'hint' | 'guess' | 'banter'` -/
inductive TurnPhase where
  | hint
  | guess
  | banter
deriving DecidableEq, Repr

/-- `interface TurnState` from types.ts. -/
structure TurnState where
  activeTeam : TeamColor
  phase : TurnPhase
  hintWord : Option String := none
  hintCount : Option Int := none
  hintTargets : Option (List String) := none
  guessesMade : Int := 0
  maxGuesses : Int := 0
  previousTeam : Option TeamColor := none
deriving DecidableEq, Repr

/-- Message kinds of `interface Message`. -/
inductive MessageKind where
  | chat
  | proposal
  | system
deriving DecidableEq, Repr

/-- `interface Message` from types.ts (`id`/`createdAt` omitted:
they are a fresh UUID and a wall-clock timestamp). -/
structure Message where
  team : TeamColor
  playerId : String
  playerName : String
  kind : MessageKind
  content : String
  proposalId : Option String := none
  phase : TurnPhase
deriving DecidableEq, Repr

/-- `type ProposalKind = 'guess' | 'end_turn'` -/
inductive ProposalKind where
  | guess
  | end_turn
deriving DecidableEq, Repr

/-- Proposal status values. -/
inductive ProposalStatus where
  | pending
  | accepted
  | rejected
deriving DecidableEq, Repr

/-- Vote decisions. -/
inductive VoteDecision where
  | accept
  | reject
deriving DecidableEq, Repr

def VoteDecision.str : VoteDecision → String
  | .accept => "accept"
  | .reject => "reject"

/-- `interface Proposal` from types.ts.  `payload: { word?: string }` is
flattened into `payloadWord`; `createdAt`/`resolvedAt` timestamps are not
modelled; `votes : Record<string, 'accept' | 'reject'>` is an association
list keyed by player id. -/
structure Proposal where
  id : String
  team : TeamColor
  kind : ProposalKind
  payloadWord : Option String := none
  status : ProposalStatus
  createdBy : String
  votes : List (String × VoteDecision) := []
deriving DecidableEq, Repr

/-- `Record` assignment `votes[playerId] = decision`: overwrite the entry if
the key exists, otherwise append it (JS objects keep insertion order). -/
def recordSet (votes : List (String × VoteDecision)) (pid : String)
    (d : VoteDecision) : List (String × VoteDecision) :=
  if votes.any (fun kv => kv.1 = pid) then
    votes.map (fun kv => if kv.1 = pid then (pid, d) else kv)
  else
    votes ++ [(pid, d)]

/-- `interface GameState` from types.ts, restricted to the fields the game
logic reads or writes (`id`, `createdAt`, `llmConfig`, `deliberating`,
`llmError`, `gameOverBanter` play no role in any claim).  The two
`Record<TeamColor, _>` fields are split into explicit red/blue fields. -/
structure GameState where
  cards : List Card
  players : List (String × Player)
  redTeamPlayers : List String
  blueTeamPlayers : List String
  chatLog : List Message
  redProposals : List Proposal
  blueProposals : List Proposal
  turn : TurnState
  winner : Option TeamColor := none
  loserReason : Option String := none
  awaitingHumanContinuationRed : Bool := false
  awaitingHumanContinuationBlue : Bool := false
deriving DecidableEq, Repr

/-- `game.teams[team].players` -/
def GameState.teamPlayers (g : GameState) : TeamColor → List String
  | .red => g.redTeamPlayers
  | .blue => g.blueTeamPlayers

/-- `game.proposals[team]` -/
def GameState.proposalsOf (g : GameState) : TeamColor → List Proposal
  | .red => g.redProposals
  | .blue => g.blueProposals

/-- Write back `game.proposals[team]`. -/
def GameState.setProposals (g : GameState) (t : TeamColor)
    (ps : List Proposal) : GameState :=
  match t with
  | .red => { g with redProposals := ps }
  | .blue => { g with blueProposals := ps }

/-- `game.players[playerId]` -/
def GameState.player? (g : GameState) (pid : String) : Option Player :=
  (g.players.find? (fun kv => kv.1 = pid)).map (fun kv => kv.2)

/-- One constructor per `throw new Error(...)` site of gameStore.ts; the
`message` function below recovers the exact thrown message. -/
inductive GameError where
  | unknownPlayer
  | notInTeam
  | emptyMessage
  | gameOver
  | notYourTurn
  | notHintPhase
  | onlySpymaster
  | hintNotSingleWord
  | hintCountInvalid
  | hintOnBoard
  | notBanterPhase
  | notOnBoard (w : String)
  | wasAlreadyRevealed (w : String)
  | waitForHint
  | pendingProposalExists
  | guessNeedsWord
  | hasAlreadyBeenRevealed (w : String)
  | proposalNotFound
  | proposalResolved
  | ownProposal
deriving DecidableEq, Repr

/-- The exact `Error` message thrown at each site in gameStore.ts. -/
def GameError.message : GameError → String
  | .unknownPlayer => "Unknown player."
  | .notInTeam => "Player is not in this team."
  | .emptyMessage => "Message cannot be empty."
  | .gameOver => "Game is over."
  | .notYourTurn => "Not your turn."
  | .notHintPhase => "Not hint phase."
  | .onlySpymaster => "Only the spymaster can give hints."
  | .hintNotSingleWord => "Hint must be a single word."
  | .hintCountInvalid => "Count must be a positive integer."
  | .hintOnBoard => "Hint cannot be a word on the board."
  | .notBanterPhase => "Not in banter phase."
  | .notOnBoard w => "\"" ++ w ++ "\" is not on the board."
  | .wasAlreadyRevealed w => "\"" ++ w ++ "\" was already revealed."
  | .waitForHint => "Wait for the spymaster hint first."
  | .pendingProposalExists => "There is already a pending proposal. Vote on it first."
  | .guessNeedsWord => "Guess must include a word."
  | .hasAlreadyBeenRevealed w => "\"" ++ w ++ "\" has already been revealed."
  | .proposalNotFound => "Proposal not found."
  | .proposalResolved => "Proposal already resolved."
  | .ownProposal => "You cannot vote on your own proposal."

/-- `s.split(/\s+/)`: split on maximal runs of whitespace.  `acc` is the
token being built (reversed); `skipping` is true while inside a whitespace
run.  As in JavaScript, splitting the empty string yields `[""]`, and a
leading/trailing separator produces an empty first/last element. -/
def wsSplitAux : List Char → List Char → Bool → List String
  | [], acc, _ => [String.mk acc.reverse]
  | c :: rest, acc, skipping =>
    if skipping then
      if c.isWhitespace then wsSplitAux rest acc true
      else wsSplitAux rest [c] false
    else
      if c.isWhitespace then String.mk acc.reverse :: wsSplitAux rest [] true
      else wsSplitAux rest (c :: acc) false

/-- `s.split(/\s+/)` for a string. -/
def jsSplitWhitespace (s : String) : List String :=
  wsSplitAux s.toList [] false

/-- `s.toLowerCase()` (ASCII, as all board words and hints are; same
letter-by-letter mapping as `String.toLower`, defined by structural
recursion so terms reduce). -/
def jsToLower (s : String) : String :=
  ⟨s.data.map Char.toLower⟩

/-- `s.trim()`: strip leading and trailing whitespace. -/
def jsTrim (s : String) : String :=
  ⟨((s.data.dropWhile Char.isWhitespace).reverse.dropWhile
      Char.isWhitespace).reverse⟩

/-! ## Game State Store operations (gameStore.ts) -/

/-- `SYSTEM_PLAYER_ID` -/
def SYSTEM_PLAYER_ID : String := "system"

/-- The synthetic player object created by `ensureSystemPlayer`. -/
def systemPlayer : Player :=
  { id := SYSTEM_PLAYER_ID, name := "System", role := .operative
    team := .red, type := .llm }

/-- `ensureSystemPlayer` -/
def ensureSystemPlayer (g : GameState) : GameState :=
  if (g.player? SYSTEM_PLAYER_ID).isSome then g
  else { g with players := g.players ++ [(SYSTEM_PLAYER_ID, systemPlayer)] }

/-- `addMessage`: looks up the player for its display name, then pushes the
message onto the chat log (throws `Unknown player.` when absent). -/
def addMessage (g : GameState) (team : TeamColor) (playerId : String)
    (content : String) (kind : MessageKind) (proposalId : Option String) :
    Except GameError GameState :=
  match g.player? playerId with
  | none => .error .unknownPlayer
  | some player =>
    .ok { g with chatLog := g.chatLog ++
      [{ team, playerId, playerName := player.name, kind, content,
         proposalId, phase := g.turn.phase }] }

/-- `addSystemMessage`: `ensureSystemPlayer` guarantees the lookup inside
`addMessage` succeeds, so this is total; the pushed message carries the
system player's id and name. -/
def addSystemMessage (g : GameState) (team : TeamColor) (content : String) :
    GameState :=
  let g1 := ensureSystemPlayer g
  { g1 with chatLog := g1.chatLog ++
    [{ team, playerId := SYSTEM_PLAYER_ID, playerName := "System",
       kind := .system, content, proposalId := none,
       phase := g1.turn.phase }] }

/-- `assertTeamMember` succeeds iff the player id is on the team's list. -/
def isTeamMember (g : GameState) (team : TeamColor) (playerId : String) : Bool :=
  (g.teamPlayers team).contains playerId

/-- `postChatMessage` -/
def postChatMessage (g : GameState) (team : TeamColor) (playerId : String)
    (content : String) : Except GameError GameState :=
  if ¬ isTeamMember g team playerId then .error .notInTeam
  else if jsTrim content = "" then .error .emptyMessage
  else addMessage g team playerId (jsTrim content) .chat none

/-- `operativeCount` -/
def operativeCount (g : GameState) (team : TeamColor) : Nat :=
  ((g.teamPlayers team).filter
    (fun id => match g.player? id with
      | some p => p.role = .operative
      | none => false)).length

/-- `requiredVotes(count) = Math.ceil(count / 2)` (exact on all integers:
`⌈n/2⌉ = -⌊-n/2⌋`). -/
def requiredVotes (count : Int) : Int :=
  -((-count).fdiv 2)

/-- `submitHint` -/
def submitHint (g : GameState) (team : TeamColor) (playerId : String)
    (word : String) (count : Int) (targets : Option (List String)) :
    Except GameError GameState :=
  if ¬ isTeamMember g team playerId then .error .notInTeam
  else if g.winner.isSome then .error .gameOver
  else if g.turn.activeTeam ≠ team then .error .notYourTurn
  else if g.turn.phase ≠ .hint then .error .notHintPhase
  else match g.player? playerId with
  | none => .error .unknownPlayer
  | some player =>
    if player.role ≠ .spymaster then .error .onlySpymaster
    else if word = "" ∨ (jsSplitWhitespace (jsTrim word)).length ≠ 1 then
      .error .hintNotSingleWord
    else if count < 1 then .error .hintCountInvalid
    else
      let hintWord := jsToLower (jsTrim word)
      let boardWords := g.cards.map (fun c => jsToLower c.word)
      if boardWords.contains hintWord then .error .hintOnBoard
      else
        let g1 := { g with turn := { g.turn with
          phase := .guess,
          hintWord := some hintWord,
          hintCount := some count,
          hintTargets := match targets with
            | some ts => if ts.length ≠ 0 then some ts else none
            | none => none,
          guessesMade := 0,
          maxGuesses := count + 1 } }
        .ok (addSystemMessage g1 team
          ("Spymaster says: \"" ++ hintWord ++ "\" (" ++ toString count ++ ")"))

/-- `countRemaining` -/
def countRemaining (g : GameState) (owner : TeamColor) : Nat :=
  (g.cards.filter
    (fun c => c.owner = CardOwner.ofTeam owner ∧ ¬ c.revealed)).length

/-- `switchTurn`: phase → banter, clear hint fields and counters;
`activeTeam` (and `previousTeam`, which the source never writes) stay
as they are. -/
def switchTurn (g : GameState) : GameState :=
  { g with
    turn := { g.turn with
      phase := .banter,
      hintWord := none,
      hintCount := none,
      hintTargets := none,
      guessesMade := 0,
      maxGuesses := 0 },
    awaitingHumanContinuationRed := false,
    awaitingHumanContinuationBlue := false }

/-- `endBanter` -/
def endBanter (g : GameState) : Except GameError GameState :=
  if g.turn.phase ≠ .banter then .error .notBanterPhase
  else
    let g1 := { g with turn := { g.turn with
      activeTeam := otherTeam g.turn.activeTeam, phase := .hint } }
    .ok (addSystemMessage g1 g1.turn.activeTeam
      ("It's now " ++ g1.turn.activeTeam.str ++ "'s turn."))

/-- `finishGame` -/
def finishGame (g : GameState) (winner : TeamColor) (reason : String) :
    GameState :=
  let g1 := { g with winner := some winner, loserReason := some reason }
  addSystemMessage g1 winner
    ("Game over — " ++ winner.str ++ " wins! (" ++ reason ++ ")")

/-- Flip `revealed` on the first card whose word matches case-insensitively
(the object `find` returned and mutated in the source). -/
def revealFirst : List Card → String → List Card
  | [], _ => []
  | c :: rest, w =>
    if jsToLower c.word = jsToLower w then { c with revealed := true } :: rest
    else c :: revealFirst rest w

/-- `resolveGuess` -/
def resolveGuess (g : GameState) (team : TeamColor) (guessWord : String) :
    Except GameError GameState :=
  match g.cards.find? (fun c => jsToLower c.word = jsToLower guessWord) with
  | none => .error (.notOnBoard guessWord)
  | some card =>
    if card.revealed then .error (.wasAlreadyRevealed guessWord)
    else
      -- reveal message is added before the card flips
      let g1 := addSystemMessage g team
        ("Revealed \"" ++ card.word ++ "\" → " ++ card.owner.str)
      let g2 := { g1 with cards := revealFirst g1.cards guessWord }
      if card.owner = .assassin then
        .ok (finishGame g2 (otherTeam team) (team.str ++ " hit the assassin!"))
      else if countRemaining g2 team = 0 then
        .ok (finishGame g2 team (team.str ++ " found all their words"))
      else if countRemaining g2 (otherTeam team) = 0 then
        .ok (finishGame g2 (otherTeam team)
          ("All " ++ (otherTeam team).str ++ " words were revealed"))
      else if card.owner ≠ CardOwner.ofTeam team then
        .ok (switchTurn g2)
      else
        let g3 := { g2 with turn :=
          { g2.turn with guessesMade := g2.turn.guessesMade + 1 } }
        if g3.turn.guessesMade ≥ g3.turn.maxGuesses then .ok (switchTurn g3)
        else .ok g3

/-- Set the status of the proposal with the given id (the in-place object
mutation of the source). -/
def setProposalStatus (ps : List Proposal) (pid : String)
    (st : ProposalStatus) : List Proposal :=
  ps.map (fun p => if p.id = pid then { p with status := st } else p)

/-- Store a vote on the proposal with the given id. -/
def setProposalVote (ps : List Proposal) (pid : String) (voter : String)
    (d : VoteDecision) : List Proposal :=
  ps.map (fun p =>
    if p.id = pid then { p with votes := recordSet p.votes voter d } else p)

/-- `voteOnProposal` -/
def voteOnProposal (g : GameState) (team : TeamColor) (playerId : String)
    (proposalId : String) (decision : VoteDecision) :
    Except GameError GameState :=
  if ¬ isTeamMember g team playerId then .error .notInTeam
  else match (g.proposalsOf team).find? (fun p => p.id = proposalId) with
  | none => .error .proposalNotFound
  | some proposal =>
    if proposal.status ≠ .pending then .error .proposalResolved
    else if proposal.createdBy = playerId then .error .ownProposal
    else
      let votes' := recordSet proposal.votes playerId decision
      let g1 := g.setProposals team
        (setProposalVote (g.proposalsOf team) proposalId playerId decision)
      match addMessage g1 team playerId
        ((g1.player? playerId).elim "" (fun p => p.name) ++ " voted " ++
          decision.str) .system (some proposalId) with
      | .error e => .error e
      | .ok g2 =>
        let voteValues := votes'.map (fun kv => kv.2)
        let voterCount : Int := (operativeCount g2 team : Int) - 1
        let threshold := requiredVotes voterCount
        let accepts : Int := (voteValues.filter (fun v => v = .accept)).length
        let rejects : Int := (voteValues.filter (fun v => v = .reject)).length
        if accepts ≥ threshold then
          let g3 := g2.setProposals team
            (setProposalStatus (g2.proposalsOf team) proposalId .accepted)
          if proposal.kind = .guess then
            resolveGuess g3 team (proposal.payloadWord.getD "")
          else
            .ok (switchTurn
              (addSystemMessage g3 team "Team decided to end their turn."))
        else if 2 * rejects > voterCount then
          let g3 := g2.setProposals team
            (setProposalStatus (g2.proposalsOf team) proposalId .rejected)
          .ok (addSystemMessage g3 team "Proposal rejected — keep discussing.")
        else
          .ok g2

/-- The guess-word validation block of `createProposal`: a guess needs a
non-empty word naming an unrevealed board card. -/
def guessWordCheck (g : GameState) (kind : ProposalKind)
    (payloadWord : Option String) : Except GameError Unit :=
  if kind = .guess then
    match payloadWord with
    | none => .error .guessNeedsWord
    | some w =>
      if jsTrim w = "" then .error .guessNeedsWord
      else match g.cards.find? (fun c => jsToLower c.word = jsToLower (jsTrim w)) with
      | none => .error (.notOnBoard w)
      | some card =>
        if card.revealed then .error (.hasAlreadyBeenRevealed w) else .ok ()
  else .ok ()

/-- `createProposal`; `newId` stands for the `randomUUID()` of the created
proposal. -/
def createProposal (g : GameState) (team : TeamColor) (playerId : String)
    (kind : ProposalKind) (payloadWord : Option String) (newId : String) :
    Except GameError GameState :=
  if ¬ isTeamMember g team playerId then .error .notInTeam
  else if g.winner.isSome then .error .gameOver
  else if g.turn.activeTeam ≠ team then .error .notYourTurn
  else if g.turn.phase ≠ .guess then .error .waitForHint
  else match (g.proposalsOf team).find? (fun p => p.status = .pending) with
  | some pendingProposal =>
    -- proposing the same word as the pending guess converts to an accept vote
    if kind = .guess ∧ pendingProposal.kind = .guess ∧
        payloadWord.map (fun w => jsToLower (jsTrim w)) =
          pendingProposal.payloadWord.map jsToLower ∧
        pendingProposal.createdBy ≠ playerId then
      match g.player? playerId with
      | none => .error .unknownPlayer
      | some player =>
        match addMessage g team playerId
          (player.name ++ " also wants to guess \"" ++
            payloadWord.getD "" ++ "\"") .system (some pendingProposal.id) with
        | .error e => .error e
        | .ok g1 => voteOnProposal g1 team playerId pendingProposal.id .accept
    else .error .pendingProposalExists
  | none =>
    match guessWordCheck g kind payloadWord with
    | .error e => .error e
    | .ok () =>
      let proposal : Proposal :=
        { id := newId, team, kind,
          payloadWord := payloadWord.map jsTrim,
          status := .pending, createdBy := playerId, votes := [] }
      let g1 := g.setProposals team (g.proposalsOf team ++ [proposal])
      let label := if kind = .guess then
          "proposes guessing \"" ++ payloadWord.getD "" ++ "\""
        else "proposes ending the turn"
      match g.player? playerId with
      | none => .error .unknownPlayer
      | some proposer =>
        match addMessage g1 team playerId (proposer.name ++ " " ++ label)
            .proposal (some proposal.id) with
        | .error e => .error e
        | .ok g2 =>
          -- auto-pass for solo operatives (threshold = 0)
          let voterCount : Int := (operativeCount g2 team : Int) - 1
          let threshold := requiredVotes voterCount
          if threshold = 0 then
            let g3 := g2.setProposals team
              (setProposalStatus (g2.proposalsOf team) newId .accepted)
            let g4 := addSystemMessage g3 team
              "Solo operative — proposal auto-accepted."
            if proposal.kind = .guess then
              resolveGuess g4 team (proposal.payloadWord.getD "")
            else
              .ok (switchTurn
                (addSystemMessage g4 team "Team decided to end their turn."))
          else .ok g2

/-- `forfeitTurn` -/
def forfeitTurn (g : GameState) (team : TeamColor) (reason : String) :
    GameState :=
  switchTurn (addSystemMessage g team reason)

/-! ## Delivery Gate (credit-based ttsGate) -/

/-- `BUFFER_SIZE` -/
def BUFFER_SIZE : Nat := 5

/-- The per-game state of the delivery gate: the `ttsEnabled` flag, the
banked `credits`, and the FIFO `waitQueue` of blocked waiters (each waiter's
`wrappedResolve` closure is represented by an abstract token). -/
structure TtsGate where
  enabled : Bool := false
  credits : Nat := 0
  waitQueue : List Nat := []
deriving DecidableEq, Repr

/-- Outcome of a `waitForTtsAck` call: the promise either resolves
immediately or blocks in the queue. -/
inductive WaitOutcome where
  | immediate
  | blocked
deriving DecidableEq, Repr

/-- `setTtsMode`: disabling drains every blocked waiter and resets credits;
enabling front-loads `BUFFER_SIZE` credits and an empty queue.  The second
component lists the waiters woken by the drain. -/
def setTtsMode (s : TtsGate) (enabled : Bool) : TtsGate × List Nat :=
  if ¬ enabled then
    ({ enabled := false, credits := BUFFER_SIZE, waitQueue := [] }, s.waitQueue)
  else
    ({ enabled := true, credits := BUFFER_SIZE, waitQueue := [] }, [])

/-- `waitForTtsAck` (the 15-second timeout is real time and not modelled;
within the model a blocked waiter stays queued until an ack). -/
def waitForTtsAck (s : TtsGate) (token : Nat) : TtsGate × WaitOutcome :=
  if ¬ s.enabled then (s, .immediate)
  else if s.credits > 0 then
    ({ s with credits := s.credits - 1 }, .immediate)
  else
    ({ s with waitQueue := s.waitQueue ++ [token] }, .blocked)

/-- `ackTts`: wake the oldest blocked waiter, otherwise bank a credit capped
at `BUFFER_SIZE`.  The second component is the woken waiter, if any. -/
def ackTts (s : TtsGate) : TtsGate × Option Nat :=
  match s.waitQueue with
  | t :: rest => ({ s with waitQueue := rest }, some t)
  | [] =>
    if s.credits < BUFFER_SIZE then ({ s with credits := s.credits + 1 }, none)
    else (s, none)

/-- `n` consecutive `ackTts` calls. -/
def iterAck : Nat → TtsGate → TtsGate
  | 0, s => s
  | n + 1, s => iterAck n (ackTts s).1

/-- A sequence of `waitForTtsAck` calls; returns the final state and the
outcome of every call in order. -/
def waitSeq : TtsGate → List Nat → TtsGate × List WaitOutcome
  | s, [] => (s, [])
  | s, t :: ts =>
    let (s1, o) := waitForTtsAck s t
    let (s2, os) := waitSeq s1 ts
    (s2, o :: os)

/-! ## Deliberation scheduler (deliberation.ts)

The scheduler's game-state effects are synchronous; its only inputs are the
agent responses, so `runOnePlayer` is modelled as a function of the agent's
successive responses (one per LLM call; an exhausted response list stands
for a failed LLM call, which the source catches and turns into `false`).
`waitForTtsAck` suspensions do not touch the game state and are elided.
Fresh proposal UUIDs are drawn from an explicit supply, one per
`runOnePlayer` call (at most one proposal can be created per call). -/

/-- `interface TeamTurnState` (per game and team). -/
structure TeamTurnState where
  locked : Bool := false
  failures : Nat := 0
  proposedWords : List String := []
deriving DecidableEq, Repr

/-- The action field of a parsed agent response (llmClient `LlmResponse`). -/
inductive AgentAction where
  | noAction
  | hint (word : String) (count : Int)
  | proposeGuess (word : String)
  | proposeEndTurn
  | vote (proposalId : String) (decision : VoteDecision)
deriving DecidableEq, Repr

/-- A parsed agent response: chat message plus action. -/
structure AgentResp where
  message : String
  action : AgentAction
deriving DecidableEq, Repr

/-- Result of one `runOnePlayer` call: updated game, updated per-team
scheduler state, the returned boolean, and the unconsumed responses. -/
structure OnePlayerResult where
  game : GameState
  ts : TeamTurnState
  ok : Bool
  rest : List AgentResp
deriving Repr

/-- The substring test
`errMsg.includes('not on the board') || errMsg.includes('already been
revealed') || errMsg.includes('already a pending proposal')` on the thrown
messages, decided per constructor (only these three messages contain one of
the substrings). -/
def recoverableProposalError : GameError → Bool
  | .notOnBoard _ => true
  | .hasAlreadyBeenRevealed _ => true
  | .pendingProposalExists => true
  | _ => false

/-- The substring test `voteErrMsg.includes('not found') ||
voteErrMsg.includes('not pending')`: only `Proposal not found.` matches
(no thrown message contains `not pending`). -/
def skippableVoteError : GameError → Bool
  | .proposalNotFound => true
  | _ => false

/-- The `for (attempt …)` retry loop of `runOnePlayer`.  `fuel` is the
remaining attempts (`maxAttempts` at the call site); each iteration consumes
one agent response; an empty response list is a failed LLM call, caught by
the surrounding `catch` which returns `false`. -/
def runAttempts (team : TeamColor) (playerId : String) (player : Player)
    (pending : List Proposal) (boardWords : List String) (freshId : String) :
    Nat → GameState → TeamTurnState → List AgentResp → OnePlayerResult
  | 0, g, ts, resps => ⟨g, ts, false, resps⟩
  | _ + 1, g, ts, [] => ⟨g, ts, false, []⟩
  | fuel + 1, g, ts, resp :: resps =>
    let action := resp.action
    let mustVote : Option Proposal :=
      if g.turn.phase = .guess ∧ player.role = .operative then
        pending.find? (fun p => p.createdBy ≠ playerId)
      else none
    -- a pending teammate proposal forces a vote on exactly that proposal
    if (match mustVote, action with
        | some mvp, .vote pid _ => decide (pid ≠ mvp.id)
        | some _, _ => true
        | none, _ => false : Bool) then
      ⟨g, { ts with failures := ts.failures + 1 }, false, resps⟩
    else match action with
    | .hint w c =>
      -- hint pre-check and submission failure both retry the loop
      if boardWords.contains (jsToLower w) then
        runAttempts team playerId player pending boardWords freshId fuel g ts resps
      else
        match submitHint g team player.id w c none with
        | .ok g' => ⟨g', ts, true, resps⟩
        | .error _ =>
          runAttempts team playerId player pending boardWords freshId fuel g ts resps
    | _ =>
      -- non-hint actions first post the chat message
      match (if resp.message ≠ "" ∧ resp.message ≠ "..." then
          postChatMessage g team player.id resp.message
        else .ok g) with
      | .error _ => ⟨g, ts, false, resps⟩
      | .ok g1 =>
        match action with
        | .proposeGuess w =>
          match createProposal g1 team player.id .guess (some w) freshId with
          | .ok g2 =>
            let normalized := jsToLower w
            let ts1 := if ts.proposedWords.contains normalized then ts
              else { ts with failures := 0 }
            let ts2 := { ts1 with proposedWords :=
              if ts1.proposedWords.contains normalized then ts1.proposedWords
              else ts1.proposedWords ++ [normalized] }
            ⟨g2, ts2, true, resps⟩
          | .error e =>
            if recoverableProposalError e then
              match postChatMessage g1 team player.id
                  ("❌ Cannot guess \"" ++ w ++ "\" — " ++ e.message) with
              | .ok g2 =>
                ⟨g2, { ts with failures := ts.failures + 1 }, false, resps⟩
              | .error _ => ⟨g1, ts, false, resps⟩
            else ⟨g1, ts, false, resps⟩
        | .proposeEndTurn =>
          match createProposal g1 team player.id .end_turn none freshId with
          | .ok g2 => ⟨g2, ts, true, resps⟩
          | .error _ => ⟨g1, ts, false, resps⟩
        | .vote pid d =>
          match voteOnProposal g1 team player.id pid d with
          | .ok g2 => ⟨g2, ts, true, resps⟩
          | .error e =>
            if skippableVoteError e then ⟨g1, ts, true, resps⟩
            else ⟨g1, ts, false, resps⟩
        | _ => ⟨g1, ts, true, resps⟩

/-- `runOnePlayer` from deliberation.ts. -/
def runOnePlayer (g : GameState) (ts : TeamTurnState) (team : TeamColor)
    (playerId : String) (responses : List AgentResp) (freshId : String) :
    OnePlayerResult :=
  if g.winner.isSome then ⟨g, ts, false, responses⟩
  else
    let isBanter := g.turn.phase = .banter
    if ¬ isBanter ∧ g.turn.activeTeam ≠ team then ⟨g, ts, false, responses⟩
    else match g.player? playerId with
    | none => ⟨g, ts, false, responses⟩
    | some player =>
      if player.type ≠ .llm then ⟨g, ts, false, responses⟩
      else if player.role = .spymaster ∧ (g.turn.phase = .guess ∨ isBanter) then
        ⟨g, ts, false, responses⟩
      else
        let pending := (g.proposalsOf team).filter (fun p => p.status = .pending)
        let boardWords := g.cards.map (fun c => jsToLower c.word)
        let isHinting := player.role = .spymaster ∧ g.turn.phase = .hint
        let maxAttempts := if isHinting then 5 else 1
        runAttempts team playerId player pending boardWords freshId
          maxAttempts g ts responses

/-- State threaded through one main-speaker iteration of the round. -/
structure SpeakerState where
  game : GameState
  ts : TeamTurnState
  spoke : List String
  resps : List AgentResp
  fids : List String
deriving Repr

/-- The `for (const voter of voters)` vote-collection loop (B4). -/
def votersLoop (team : TeamColor) (proposalId : String) :
    List Player → SpeakerState → SpeakerState
  | [], s => s
  | voter :: rest, s =>
    let stillPending := (s.game.proposalsOf team).any
      (fun p => p.id = proposalId ∧ p.status = .pending)
    if ¬ stillPending ∨ s.game.winner.isSome then s
    else
      let r := runOnePlayer s.game s.ts team voter.id s.resps (s.fids.headD "")
      votersLoop team proposalId rest
        ⟨r.game, r.ts, s.spoke ++ [voter.id], r.rest, s.fids.tail⟩

/-- The body of one main-speaker iteration of `runConversationRound`: run
the speaker, then, if a proposal is pending, collect votes from the
remaining speakers. -/
def speakerStep (team : TeamColor) (allSpeakers : List Player)
    (player : Player) (s : SpeakerState) : SpeakerState :=
  let r := runOnePlayer s.game s.ts team player.id s.resps (s.fids.headD "")
  let spoke1 := s.spoke ++ [player.id]
  let pendingNow := (r.game.proposalsOf team).filter
    (fun p => p.status = .pending)
  match pendingNow.head? with
  | some proposal =>
    let voters := allSpeakers.filter (fun p =>
      p.id ≠ proposal.createdBy ∧
      ¬ proposal.votes.any (fun kv => kv.1 = p.id) ∧
      ¬ spoke1.contains p.id)
    votersLoop team proposal.id voters
      ⟨r.game, r.ts, spoke1, r.rest, s.fids.tail⟩
  | none => ⟨r.game, r.ts, spoke1, r.rest, s.fids.tail⟩

/-- Result of a conversation round. -/
structure RoundResult where
  game : GameState
  ts : TeamTurnState
  ok : Bool
deriving Repr

/-- The forfeiture message used at the 6-failure threshold. -/
def failureForfeitMsg (team : TeamColor) : String :=
  "Team " ++ team.str ++ " kept making invalid moves. Turn forfeited."

/-- The `for (const player of speakers)` loop of `runConversationRound`. -/
def roundLoop (team : TeamColor) (allSpeakers : List Player) :
    List Player → SpeakerState → RoundResult
  | [], s => ⟨s.game, s.ts, true⟩
  | player :: rest, s =>
    if s.game.winner.isSome then ⟨s.game, s.ts, true⟩
    else if s.game.turn.activeTeam ≠ team then ⟨s.game, s.ts, true⟩
    else if s.spoke.contains player.id then
      roundLoop team allSpeakers rest s
    else
      let s1 := speakerStep team allSpeakers player s
      if s1.ts.failures ≥ 6 then
        ⟨forfeitTurn s1.game team (failureForfeitMsg team), s1.ts, false⟩
      else roundLoop team allSpeakers rest s1

/-- `runConversationRound`: `speakers` is the shuffled list of the team's
LLM players (the shuffle is an input of the model). -/
def runConversationRound (g : GameState) (ts : TeamTurnState)
    (team : TeamColor) (speakers : List Player) (resps : List AgentResp)
    (fids : List String) : RoundResult :=
  if speakers.length = 0 then ⟨g, ts, false⟩
  else roundLoop team speakers speakers ⟨g, ts, [], resps, fids⟩

/-! ## Concrete fixtures used to evaluate the model -/

/-- `Except` is `.ok`. -/
def exOk {α : Type} (e : Except GameError α) : Bool :=
  match e with
  | .ok _ => true
  | .error _ => false

/-- Value of an `.ok` result, defaulting to the input state. -/
def exGet (g : GameState) (e : Except GameError GameState) : GameState :=
  match e with
  | .ok g' => g'
  | .error _ => g

def redOp1 : Player :=
  { id := "r1", name := "Ray", type := .llm, role := .operative, team := .red }
def redOp2 : Player :=
  { id := "r2", name := "Rem", type := .llm, role := .operative, team := .red }
def redSpy : Player :=
  { id := "rs", name := "Rhea", type := .llm, role := .spymaster, team := .red }
def blueOp1 : Player :=
  { id := "b1", name := "Bo", type := .llm, role := .operative, team := .blue }
def blueSpy : Player :=
  { id := "bs", name := "Blair", type := .llm, role := .spymaster, team := .blue }

/-- A small board (the real board has 25 cards; no claim depends on the
board size). -/
def baseCards : List Card :=
  [ { word := "apple", owner := .red, revealed := false },
    { word := "anchor", owner := .red, revealed := false },
    { word := "bolt", owner := .blue, revealed := false },
    { word := "breeze", owner := .blue, revealed := false },
    { word := "cloud", owner := .neutral, revealed := false },
    { word := "dagger", owner := .assassin, revealed := false } ]

/-- A freshly created game (as `createGame` leaves it: empty chat, no
proposals, hint phase, `previousTeam` absent). -/
def baseGame : GameState :=
  { cards := baseCards
    players := [("r1", redOp1), ("r2", redOp2), ("rs", redSpy),
                ("b1", blueOp1), ("bs", blueSpy)]
    redTeamPlayers := ["rs", "r1", "r2"]
    blueTeamPlayers := ["bs", "b1"]
    chatLog := []
    redProposals := []
    blueProposals := []
    turn := { activeTeam := .red, phase := .hint } }

/-! ## Frame lemmas -/

@[simp] theorem addSystemMessage_turn (g : GameState) (t : TeamColor)
    (c : String) : (addSystemMessage g t c).turn = g.turn := by
  by_cases h : (g.player? SYSTEM_PLAYER_ID).isSome <;>
    simp [addSystemMessage, ensureSystemPlayer, h]

@[simp] theorem addSystemMessage_winner (g : GameState) (t : TeamColor)
    (c : String) : (addSystemMessage g t c).winner = g.winner := by
  by_cases h : (g.player? SYSTEM_PLAYER_ID).isSome <;>
    simp [addSystemMessage, ensureSystemPlayer, h]

@[simp] theorem addSystemMessage_cards (g : GameState) (t : TeamColor)
    (c : String) : (addSystemMessage g t c).cards = g.cards := by
  by_cases h : (g.player? SYSTEM_PLAYER_ID).isSome <;>
    simp [addSystemMessage, ensureSystemPlayer, h]

@[simp] theorem addSystemMessage_redProposals (g : GameState) (t : TeamColor)
    (c : String) : (addSystemMessage g t c).redProposals = g.redProposals := by
  by_cases h : (g.player? SYSTEM_PLAYER_ID).isSome <;>
    simp [addSystemMessage, ensureSystemPlayer, h]

@[simp] theorem addSystemMessage_blueProposals (g : GameState) (t : TeamColor)
    (c : String) : (addSystemMessage g t c).blueProposals = g.blueProposals := by
  by_cases h : (g.player? SYSTEM_PLAYER_ID).isSome <;>
    simp [addSystemMessage, ensureSystemPlayer, h]

@[simp] theorem addSystemMessage_redTeamPlayers (g : GameState)
    (t : TeamColor) (c : String) :
    (addSystemMessage g t c).redTeamPlayers = g.redTeamPlayers := by
  by_cases h : (g.player? SYSTEM_PLAYER_ID).isSome <;>
    simp [addSystemMessage, ensureSystemPlayer, h]

@[simp] theorem addSystemMessage_blueTeamPlayers (g : GameState)
    (t : TeamColor) (c : String) :
    (addSystemMessage g t c).blueTeamPlayers = g.blueTeamPlayers := by
  by_cases h : (g.player? SYSTEM_PLAYER_ID).isSome <;>
    simp [addSystemMessage, ensureSystemPlayer, h]

@[simp] theorem switchTurn_winner (g : GameState) :
    (switchTurn g).winner = g.winner := rfl

@[simp] theorem switchTurn_cards (g : GameState) :
    (switchTurn g).cards = g.cards := rfl

@[simp] theorem switchTurn_redProposals (g : GameState) :
    (switchTurn g).redProposals = g.redProposals := rfl

@[simp] theorem switchTurn_blueProposals (g : GameState) :
    (switchTurn g).blueProposals = g.blueProposals := rfl

@[simp] theorem finishGame_winner (g : GameState) (w : TeamColor)
    (r : String) : (finishGame g w r).winner = some w := by
  simp [finishGame]

@[simp] theorem finishGame_redProposals (g : GameState) (w : TeamColor)
    (r : String) : (finishGame g w r).redProposals = g.redProposals := by
  simp [finishGame]

@[simp] theorem finishGame_blueProposals (g : GameState) (w : TeamColor)
    (r : String) : (finishGame g w r).blueProposals = g.blueProposals := by
  simp [finishGame]

@[simp] theorem setProposals_players (g : GameState) (t : TeamColor)
    (ps : List Proposal) : (g.setProposals t ps).players = g.players := by
  cases t <;> rfl

@[simp] theorem setProposals_redTeamPlayers (g : GameState) (t : TeamColor)
    (ps : List Proposal) :
    (g.setProposals t ps).redTeamPlayers = g.redTeamPlayers := by
  cases t <;> rfl

@[simp] theorem setProposals_blueTeamPlayers (g : GameState) (t : TeamColor)
    (ps : List Proposal) :
    (g.setProposals t ps).blueTeamPlayers = g.blueTeamPlayers := by
  cases t <;> rfl

@[simp] theorem setProposals_loserReason (g : GameState) (t : TeamColor)
    (ps : List Proposal) :
    (g.setProposals t ps).loserReason = g.loserReason := by
  cases t <;> rfl

@[simp] theorem setProposals_awaitingRed (g : GameState) (t : TeamColor)
    (ps : List Proposal) :
    (g.setProposals t ps).awaitingHumanContinuationRed =
      g.awaitingHumanContinuationRed := by
  cases t <;> rfl

@[simp] theorem setProposals_awaitingBlue (g : GameState) (t : TeamColor)
    (ps : List Proposal) :
    (g.setProposals t ps).awaitingHumanContinuationBlue =
      g.awaitingHumanContinuationBlue := by
  cases t <;> rfl

/-- `player?` only depends on the `players` field. -/
theorem player?_congr (g g' : GameState) (hp : g'.players = g.players)
    (pid : String) : g'.player? pid = g.player? pid := by
  simp [GameState.player?, hp]

/-- `operativeCount` only depends on the `players` and team-roster
fields. -/
theorem operativeCount_congr (g g' : GameState)
    (hp : g'.players = g.players)
    (hr : g'.redTeamPlayers = g.redTeamPlayers)
    (hb : g'.blueTeamPlayers = g.blueTeamPlayers) (t : TeamColor) :
    operativeCount g' t = operativeCount g t := by
  unfold operativeCount GameState.teamPlayers
  cases t <;> simp [hp, hr, hb, player?_congr g g' hp]

@[simp] theorem setProposals_teamPlayers (g : GameState) (t t' : TeamColor)
    (ps : List Proposal) :
    (g.setProposals t ps).teamPlayers t' = g.teamPlayers t' := by
  cases t <;> cases t' <;> rfl

@[simp] theorem setProposals_turn (g : GameState) (t : TeamColor)
    (ps : List Proposal) : (g.setProposals t ps).turn = g.turn := by
  cases t <;> rfl

@[simp] theorem setProposals_winner (g : GameState) (t : TeamColor)
    (ps : List Proposal) : (g.setProposals t ps).winner = g.winner := by
  cases t <;> rfl

@[simp] theorem setProposals_cards (g : GameState) (t : TeamColor)
    (ps : List Proposal) : (g.setProposals t ps).cards = g.cards := by
  cases t <;> rfl

@[simp] theorem setProposals_chatLog (g : GameState) (t : TeamColor)
    (ps : List Proposal) : (g.setProposals t ps).chatLog = g.chatLog := by
  cases t <;> rfl

@[simp] theorem setProposals_player? (g : GameState) (t : TeamColor)
    (ps : List Proposal) (pid : String) :
    (g.setProposals t ps).player? pid = g.player? pid := by
  cases t <;> rfl

@[simp] theorem proposalsOf_setProposals_self (g : GameState) (t : TeamColor)
    (ps : List Proposal) : (g.setProposals t ps).proposalsOf t = ps := by
  cases t <;> rfl

@[simp] theorem isTeamMember_setProposals (g : GameState) (t t' : TeamColor)
    (ps : List Proposal) (pid : String) :
    isTeamMember (g.setProposals t ps) t' pid = isTeamMember g t' pid := by
  cases t <;> cases t' <;> rfl

@[simp] theorem operativeCount_setProposals (g : GameState) (t t' : TeamColor)
    (ps : List Proposal) :
    operativeCount (g.setProposals t ps) t' = operativeCount g t' := by
  cases t <;> cases t' <;> rfl

@[simp] theorem operativeCount_chatLog (g : GameState) (msgs : List Message)
    (t : TeamColor) :
    operativeCount { g with chatLog := msgs } t = operativeCount g t := by
  cases t <;> rfl

@[simp] theorem player?_chatLog (g : GameState) (msgs : List Message)
    (pid : String) :
    GameState.player? { g with chatLog := msgs } pid = g.player? pid := by
  rfl

@[simp] theorem proposalsOf_chatLog (g : GameState) (msgs : List Message)
    (t : TeamColor) :
    GameState.proposalsOf { g with chatLog := msgs } t = g.proposalsOf t := by
  cases t <;> rfl

/-- `find?` by id after storing a vote on that id. -/
theorem find?_setProposalVote (ps : List Proposal) (pid voter : String)
    (d : VoteDecision) :
    (setProposalVote ps pid voter d).find? (fun p => p.id = pid) =
      (ps.find? (fun p => p.id = pid)).map
        (fun p => { p with votes := recordSet p.votes voter d }) := by
  induction ps with
  | nil => simp [setProposalVote]
  | cons p rest ih =>
    by_cases h : p.id = pid
    · simp [setProposalVote, List.find?_cons, h]
    · simp only [setProposalVote, List.map_cons] at *
      rw [if_neg h, List.find?_cons_of_neg, List.find?_cons_of_neg] <;>
        simp [h, ih]

/-- `find?` by id after setting the status of that id. -/
theorem find?_setProposalStatus (ps : List Proposal) (pid : String)
    (st : ProposalStatus) :
    (setProposalStatus ps pid st).find? (fun p => p.id = pid) =
      (ps.find? (fun p => p.id = pid)).map
        (fun p => { p with status := st }) := by
  induction ps with
  | nil => simp [setProposalStatus]
  | cons p rest ih =>
    by_cases h : p.id = pid
    · simp [setProposalStatus, List.find?_cons, h]
    · simp only [setProposalStatus, List.map_cons] at *
      rw [if_neg h, List.find?_cons_of_neg, List.find?_cons_of_neg] <;>
        simp [h, ih]

/-- The accept tally `votes.filter((v) => v === 'accept').length`. -/
def tallyAccepts (votes : List (String × VoteDecision)) : Int :=
  (((votes.map (fun kv => kv.2)).filter (fun v => v = .accept)).length : Int)

/-- The reject tally. -/
def tallyRejects (votes : List (String × VoteDecision)) : Int :=
  (((votes.map (fun kv => kv.2)).filter (fun v => v = .reject)).length : Int)

/-- The game state right after `voteOnProposal` records the vote and the
`… voted …` system message, before the tally is examined (`voter` is the
looked-up voting player). -/
def votedState (g : GameState) (team : TeamColor) (pid proposalId : String)
    (decision : VoteDecision) (voter : Player) : GameState :=
  { g.setProposals team
      (setProposalVote (g.proposalsOf team) proposalId pid decision) with
    chatLog := g.chatLog ++
      [{ team, playerId := pid, playerName := voter.name, kind := .system,
         content := voter.name ++ " voted " ++ decision.str,
         proposalId := some proposalId, phase := g.turn.phase }] }

/-- `votedState` with the proposal's status then set to `st`. -/
def votedStatusState (g : GameState) (team : TeamColor)
    (pid proposalId : String) (decision : VoteDecision) (voter : Player)
    (st : ProposalStatus) : GameState :=
  let g2 := votedState g team pid proposalId decision voter
  g2.setProposals team (setProposalStatus (g2.proposalsOf team) proposalId st)

/-- Unfolding of `voteOnProposal` on a pending proposal: the vote is
recorded, the message logged, and the tally over **all** recorded votes
(with the threshold computed from the operative count) decides the
outcome. -/
theorem voteOnProposal_eq (g : GameState) (team : TeamColor)
    (pid proposalId : String) (decision : VoteDecision)
    (proposal : Proposal) (voter : Player)
    (hmem : isTeamMember g team pid = true)
    (hfind : (g.proposalsOf team).find? (fun p => p.id = proposalId) =
      some proposal)
    (hpend : proposal.status = .pending)
    (hown : proposal.createdBy ≠ pid)
    (hvoter : g.player? pid = some voter) :
    voteOnProposal g team pid proposalId decision =
      (if tallyAccepts (recordSet proposal.votes pid decision) ≥
          requiredVotes ((operativeCount g team : Int) - 1) then
        (if proposal.kind = .guess then
          resolveGuess
            (votedStatusState g team pid proposalId decision voter .accepted)
            team (proposal.payloadWord.getD "")
        else
          .ok (switchTurn (addSystemMessage
            (votedStatusState g team pid proposalId decision voter .accepted)
            team "Team decided to end their turn.")))
      else if 2 * tallyRejects (recordSet proposal.votes pid decision) >
          (operativeCount g team : Int) - 1 then
        .ok (addSystemMessage
          (votedStatusState g team pid proposalId decision voter .rejected)
          team "Proposal rejected — keep discussing.")
      else
        .ok (votedState g team pid proposalId decision voter)) := by
  have haddm : addMessage
      (g.setProposals team
        (setProposalVote (g.proposalsOf team) proposalId pid decision))
      team pid (voter.name ++ " voted " ++ decision.str)
      .system (some proposalId) =
      .ok (votedState g team pid proposalId decision voter) := by
    simp only [addMessage, setProposals_player?, hvoter, votedState,
      setProposals_chatLog, setProposals_turn]
  have hopc : operativeCount (votedState g team pid proposalId decision voter)
      team = operativeCount g team := by
    apply operativeCount_congr <;> simp [votedState]
  unfold voteOnProposal
  rw [hfind]
  simp only [hmem, hpend, hown, ne_eq, not_true_eq_false,
    Bool.false_eq_true, if_false, not_false_eq_true, if_true,
    setProposals_player?, hvoter, Option.elim]
  rw [haddm]
  simp only [hopc, tallyAccepts, tallyRejects, votedStatusState]

/-- The proposal object `createProposal` pushes. -/
def newProposal (team : TeamColor) (pid : String) (kind : ProposalKind)
    (payloadWord : Option String) (newId : String) : Proposal :=
  { id := newId, team, kind, payloadWord := payloadWord.map jsTrim,
    status := .pending, createdBy := pid, votes := [] }

/-- The announcement label of a proposal message. -/
def proposalLabel (kind : ProposalKind) (payloadWord : Option String) :
    String :=
  if kind = .guess then
    "proposes guessing \"" ++ payloadWord.getD "" ++ "\""
  else "proposes ending the turn"

/-- The game state right after `createProposal` pushes the new pending
proposal and its announcement message. -/
def proposedState (g : GameState) (team : TeamColor) (pid : String)
    (kind : ProposalKind) (payloadWord : Option String) (newId : String)
    (proposer : Player) : GameState :=
  { g.setProposals team
      (g.proposalsOf team ++ [newProposal team pid kind payloadWord newId]) with
    chatLog := g.chatLog ++
      [{ team, playerId := pid, playerName := proposer.name,
         kind := .proposal,
         content := proposer.name ++ " " ++ proposalLabel kind payloadWord,
         proposalId := some newId, phase := g.turn.phase }] }

/-- `proposedState` after the solo-operative auto-accept: status flipped to
accepted and the auto-accept system message logged. -/
def autoAcceptState (g : GameState) (team : TeamColor) (pid : String)
    (kind : ProposalKind) (payloadWord : Option String) (newId : String)
    (proposer : Player) : GameState :=
  let g2 := proposedState g team pid kind payloadWord newId proposer
  addSystemMessage
    (g2.setProposals team (setProposalStatus (g2.proposalsOf team) newId
      .accepted))
    team "Solo operative — proposal auto-accepted."

/-- Unfolding of `createProposal` when no proposal is pending and the word
check passes: the proposal is created pending, and auto-accepted exactly
when the required-votes threshold is 0. -/
theorem createProposal_noPending_eq (g : GameState) (team : TeamColor)
    (pid : String) (kind : ProposalKind) (payloadWord : Option String)
    (newId : String) (proposer : Player)
    (hmem : isTeamMember g team pid = true)
    (hnw : g.winner = none)
    (hactive : g.turn.activeTeam = team)
    (hphase : g.turn.phase = .guess)
    (hnopend : (g.proposalsOf team).find? (fun p => p.status = .pending) =
      none)
    (hwc : guessWordCheck g kind payloadWord = .ok ())
    (hproposer : g.player? pid = some proposer) :
    createProposal g team pid kind payloadWord newId =
      (if requiredVotes ((operativeCount g team : Int) - 1) = 0 then
        (if kind = .guess then
          resolveGuess
            (autoAcceptState g team pid kind payloadWord newId proposer)
            team ((payloadWord.map jsTrim).getD "")
        else
          .ok (switchTurn (addSystemMessage
            (autoAcceptState g team pid kind payloadWord newId proposer)
            team "Team decided to end their turn.")))
      else .ok (proposedState g team pid kind payloadWord newId proposer)) := by
  have hnw' : g.winner.isSome = false := by simp [hnw]
  have haddm : addMessage
      (g.setProposals team
        (g.proposalsOf team ++ [newProposal team pid kind payloadWord newId]))
      team pid (proposer.name ++ " " ++ proposalLabel kind payloadWord)
      .proposal (some newId) =
      .ok (proposedState g team pid kind payloadWord newId proposer) := by
    simp only [addMessage, setProposals_player?, hproposer, proposedState,
      setProposals_chatLog, setProposals_turn]
  have hopc : operativeCount
      (proposedState g team pid kind payloadWord newId proposer) team =
      operativeCount g team := by
    apply operativeCount_congr <;> simp [proposedState]
  have hpr : ({ id := newId
                team := team
                kind := kind
                payloadWord := payloadWord.map jsTrim
                status := .pending
                createdBy := pid
                votes := [] } : Proposal) =
      newProposal team pid kind payloadWord newId := rfl
  have hlab : (if kind = ProposalKind.guess then
      "proposes guessing \"" ++ payloadWord.getD "" ++ "\""
    else "proposes ending the turn") = proposalLabel kind payloadWord := rfl
  unfold createProposal
  rw [hnopend, hwc]
  simp only [hmem, hnw', hactive, hphase, ne_eq, not_true_eq_false,
    Bool.false_eq_true, if_false, not_false_eq_true, if_true, hproposer]
  rw [hpr, hlab, haddm]
  simp only [hopc, autoAcceptState]

/-- The chat message added when a same-word guess proposal is folded into a
vote. -/
def convMsgState (g : GameState) (team : TeamColor) (pid : String)
    (payloadWord : Option String) (pp : Proposal) (player : Player) :
    GameState :=
  { g with chatLog := g.chatLog ++
    [{ team, playerId := pid, playerName := player.name, kind := .system,
       content := player.name ++ " also wants to guess \"" ++
         payloadWord.getD "" ++ "\"",
       proposalId := some pp.id, phase := g.turn.phase }] }

/-- Unfolding of `createProposal` when a pending proposal exists and the
identical-word conversion applies: no proposal is created, the "also wants
to guess" message is logged, and the call becomes an accept vote. -/
theorem createProposal_pending_convert_eq (g : GameState) (team : TeamColor)
    (pid : String) (payloadWord : Option String) (newId : String)
    (pp : Proposal) (player : Player)
    (hmem : isTeamMember g team pid = true)
    (hnw : g.winner = none)
    (hactive : g.turn.activeTeam = team)
    (hphase : g.turn.phase = .guess)
    (hpend : (g.proposalsOf team).find? (fun p => p.status = .pending) =
      some pp)
    (hkind : pp.kind = .guess)
    (hword : payloadWord.map (fun w => jsToLower (jsTrim w)) =
      pp.payloadWord.map jsToLower)
    (hother : pp.createdBy ≠ pid)
    (hplayer : g.player? pid = some player) :
    createProposal g team pid .guess payloadWord newId =
      voteOnProposal (convMsgState g team pid payloadWord pp player)
        team pid pp.id .accept := by
  have hnw' : g.winner.isSome = false := by simp [hnw]
  have haddm : addMessage g team pid
      (player.name ++ " also wants to guess \"" ++ payloadWord.getD "" ++
        "\"") .system (some pp.id) =
      .ok (convMsgState g team pid payloadWord pp player) := by
    simp only [addMessage, hplayer, convMsgState]
  unfold createProposal
  rw [hpend]
  simp only [hmem, hnw', hactive, hphase, ne_eq, not_true_eq_false,
    Bool.false_eq_true, if_false, not_false_eq_true, if_true, hkind, hword,
    hother, hplayer, and_true, true_and, if_true, haddm]

/-- Unfolding of `createProposal` when a pending proposal exists and the
conversion does not apply: the call is rejected outright. -/
theorem createProposal_pending_reject_eq (g : GameState) (team : TeamColor)
    (pid : String) (kind : ProposalKind) (payloadWord : Option String)
    (newId : String) (pp : Proposal)
    (hmem : isTeamMember g team pid = true)
    (hnw : g.winner = none)
    (hactive : g.turn.activeTeam = team)
    (hphase : g.turn.phase = .guess)
    (hpend : (g.proposalsOf team).find? (fun p => p.status = .pending) =
      some pp)
    (hnconv : ¬ (kind = .guess ∧ pp.kind = .guess ∧
      payloadWord.map (fun w => jsToLower (jsTrim w)) =
        pp.payloadWord.map jsToLower ∧
      pp.createdBy ≠ pid)) :
    createProposal g team pid kind payloadWord newId =
      .error .pendingProposalExists := by
  have hnw' : g.winner.isSome = false := by simp [hnw]
  unfold createProposal
  rw [hpend]
  simp only [hmem, hnw', hactive, hphase, ne_eq, not_true_eq_false,
    Bool.false_eq_true, if_false, not_false_eq_true, if_true]
  rw [if_neg hnconv]

/-- `resolveGuess` never changes the proposal lists. -/
theorem resolveGuess_proposals (g : GameState) (team : TeamColor)
    (w : String) (g' : GameState) (h : resolveGuess g team w = .ok g') :
    g'.redProposals = g.redProposals ∧
    g'.blueProposals = g.blueProposals := by
  unfold resolveGuess at h
  cases hf : g.cards.find? (fun c => jsToLower c.word = jsToLower w) with
  | none => rw [hf] at h; cases h
  | some card =>
    rw [hf] at h
    by_cases hr : card.revealed = true
    · simp [hr] at h
    · simp only [Bool.not_eq_true] at hr
      simp only [hr, Bool.false_eq_true, if_false] at h
      split_ifs at h <;>
        (simp only [Except.ok.injEq] at h; subst h; constructor <;> simp)

/-- `find?` over an append whose left part never matches. -/
theorem find?_append_right {α : Type} (p : α → Bool) (l1 l2 : List α)
    (h : l1.find? p = none) : (l1 ++ l2).find? p = l2.find? p := by
  induction l1 with
  | nil => simp
  | cons a rest ih =>
    have hpa : ¬ p a = true := by
      intro hp
      rw [List.find?_cons_of_pos _ hp] at h
      cases h
    have h' : rest.find? p = none := by
      rwa [List.find?_cons_of_neg _ hpa] at h
    rw [List.cons_append, List.find?_cons_of_neg _ hpa, ih h']

/-- Status of the proposal with the given id. -/
def proposalStatusIn (g : GameState) (team : TeamColor) (pidp : String) :
    Option ProposalStatus :=
  ((g.proposalsOf team).find? (fun p => p.id = pidp)).map (fun p => p.status)

/-- Recorded votes of the proposal with the given id. -/
def proposalVotesIn (g : GameState) (team : TeamColor) (pidp : String) :
    Option (List (String × VoteDecision)) :=
  ((g.proposalsOf team).find? (fun p => p.id = pidp)).map (fun p => p.votes)

/-- Proposal lists of `votedState`. -/
theorem votedState_proposalsOf (g : GameState) (team : TeamColor)
    (pid proposalId : String) (decision : VoteDecision) (voter : Player) :
    (votedState g team pid proposalId decision voter).proposalsOf team =
      setProposalVote (g.proposalsOf team) proposalId pid decision := by
  cases team <;> rfl

/-- Proposal lists of `votedStatusState`. -/
theorem votedStatusState_proposalsOf (g : GameState) (team : TeamColor)
    (pid proposalId : String) (decision : VoteDecision) (voter : Player)
    (st : ProposalStatus) :
    (votedStatusState g team pid proposalId decision voter st).proposalsOf
      team =
      setProposalStatus
        (setProposalVote (g.proposalsOf team) proposalId pid decision)
        proposalId st := by
  simp [votedStatusState, votedState_proposalsOf]

/-- `proposalStatusIn` only depends on the proposal lists. -/
theorem proposalStatusIn_congr (g1 g2 : GameState)
    (hr : g1.redProposals = g2.redProposals)
    (hb : g1.blueProposals = g2.blueProposals) (t : TeamColor) (x : String) :
    proposalStatusIn g1 t x = proposalStatusIn g2 t x := by
  unfold proposalStatusIn GameState.proposalsOf
  cases t <;> simp [hr, hb]

/-- `proposalVotesIn` only depends on the proposal lists. -/
theorem proposalVotesIn_congr (g1 g2 : GameState)
    (hr : g1.redProposals = g2.redProposals)
    (hb : g1.blueProposals = g2.blueProposals) (t : TeamColor) (x : String) :
    proposalVotesIn g1 t x = proposalVotesIn g2 t x := by
  unfold proposalVotesIn GameState.proposalsOf
  cases t <;> simp [hr, hb]

@[simp] theorem addSystemMessage_proposalsOf (g : GameState)
    (t t' : TeamColor) (c : String) :
    (addSystemMessage g t c).proposalsOf t' = g.proposalsOf t' := by
  unfold GameState.proposalsOf
  cases t' <;> simp

@[simp] theorem switchTurn_proposalsOf (g : GameState) (t : TeamColor) :
    (switchTurn g).proposalsOf t = g.proposalsOf t := by
  cases t <;> rfl

/-- Status readout after `votedStatusState`. -/
theorem statusIn_votedStatusState (g : GameState) (team : TeamColor)
    (pid proposalId : String) (decision : VoteDecision) (voter : Player)
    (st : ProposalStatus) (proposal : Proposal)
    (hfind : (g.proposalsOf team).find? (fun p => p.id = proposalId) =
      some proposal) :
    proposalStatusIn (votedStatusState g team pid proposalId decision voter st)
      team proposalId = some st := by
  unfold proposalStatusIn
  rw [votedStatusState_proposalsOf, find?_setProposalStatus,
    find?_setProposalVote, hfind]
  simp

/-- Status readout after `votedState` alone (status untouched). -/
theorem statusIn_votedState (g : GameState) (team : TeamColor)
    (pid proposalId : String) (decision : VoteDecision) (voter : Player)
    (proposal : Proposal)
    (hfind : (g.proposalsOf team).find? (fun p => p.id = proposalId) =
      some proposal) :
    proposalStatusIn (votedState g team pid proposalId decision voter)
      team proposalId = some proposal.status := by
  unfold proposalStatusIn
  rw [votedState_proposalsOf, find?_setProposalVote, hfind]
  simp

/-- Proposal lists of `proposedState`. -/
theorem proposedState_proposalsOf (g : GameState) (team : TeamColor)
    (pid : String) (kind : ProposalKind) (payloadWord : Option String)
    (newId : String) (proposer : Player) :
    (proposedState g team pid kind payloadWord newId proposer).proposalsOf
      team = g.proposalsOf team ++ [newProposal team pid kind payloadWord newId] := by
  cases team <;> rfl

/-- Proposal lists of `autoAcceptState`. -/
theorem autoAcceptState_proposalsOf (g : GameState) (team : TeamColor)
    (pid : String) (kind : ProposalKind) (payloadWord : Option String)
    (newId : String) (proposer : Player) :
    (autoAcceptState g team pid kind payloadWord newId proposer).proposalsOf
      team =
      setProposalStatus
        (g.proposalsOf team ++ [newProposal team pid kind payloadWord newId])
        newId .accepted := by
  unfold autoAcceptState
  rw [addSystemMessage_proposalsOf, proposalsOf_setProposals_self,
    proposedState_proposalsOf]

@[simp] theorem autoAcceptState_cards (g : GameState) (team : TeamColor)
    (pid : String) (kind : ProposalKind) (payloadWord : Option String)
    (newId : String) (proposer : Player) :
    (autoAcceptState g team pid kind payloadWord newId proposer).cards =
      g.cards := by
  simp [autoAcceptState, proposedState]

/-- Status/votes readout after the solo auto-accept, assuming the new id is
fresh. -/
theorem statusIn_autoAcceptState (g : GameState) (team : TeamColor)
    (pid : String) (kind : ProposalKind) (payloadWord : Option String)
    (newId : String) (proposer : Player)
    (hfresh : ∀ p ∈ g.proposalsOf team, p.id ≠ newId) :
    proposalStatusIn (autoAcceptState g team pid kind payloadWord newId
        proposer) team newId = some .accepted ∧
    proposalVotesIn (autoAcceptState g team pid kind payloadWord newId
        proposer) team newId = some [] := by
  have hnone : (g.proposalsOf team).find? (fun p => p.id = newId) = none := by
    rw [List.find?_eq_none]
    intro p hp
    simp [hfresh p hp]
  have hfind : ((g.proposalsOf team) ++
      [newProposal team pid kind payloadWord newId]).find?
      (fun p => p.id = newId) =
      some (newProposal team pid kind payloadWord newId) := by
    rw [find?_append_right _ _ _ hnone, List.find?_cons_of_pos]
    simp [newProposal]
  constructor
  · unfold proposalStatusIn
    rw [autoAcceptState_proposalsOf, find?_setProposalStatus, hfind]
    simp
  · unfold proposalVotesIn
    rw [autoAcceptState_proposalsOf, find?_setProposalStatus, hfind]
    simp [newProposal]

/-! ## Pending-proposal counting (for the mutual-exclusion invariant) -/

/-- Number of pending proposals in a list. -/
def pendingCount (ps : List Proposal) : Nat :=
  (ps.filter (fun p => p.status = .pending)).length

theorem pendingCount_setProposalVote (ps : List Proposal)
    (pid voter : String) (d : VoteDecision) :
    pendingCount (setProposalVote ps pid voter d) = pendingCount ps := by
  induction ps with
  | nil => rfl
  | cons p rest ih =>
    unfold setProposalVote at *
    unfold pendingCount at *
    by_cases h : p.id = pid <;>
      by_cases hs : p.status = ProposalStatus.pending <;>
      simp [h, hs, List.filter_cons] <;> simpa using ih

theorem pendingCount_setProposalStatus_le (ps : List Proposal) (pid : String)
    (st : ProposalStatus) (hst : st ≠ .pending) :
    pendingCount (setProposalStatus ps pid st) ≤ pendingCount ps := by
  induction ps with
  | nil => exact Nat.le_refl _
  | cons p rest ih =>
    unfold setProposalStatus at *
    unfold pendingCount at *
    by_cases h : p.id = pid
    · by_cases hs : p.status = ProposalStatus.pending
      · simp only [List.map_cons, if_pos h, List.filter_cons, hs, hst,
          decide_True, decide_False, if_true, if_false, List.length_cons]
        exact Nat.le_succ_of_le (by simpa using ih)
      · simp only [List.map_cons, if_pos h, List.filter_cons, hs, hst,
          decide_True, decide_False, if_true, if_false]
        simpa using ih
    · by_cases hs : p.status = ProposalStatus.pending
      · simp only [List.map_cons, if_neg h, List.filter_cons, hs,
          decide_True, if_true, List.length_cons]
        exact Nat.succ_le_succ (by simpa using ih)
      · simp only [List.map_cons, if_neg h, List.filter_cons, hs,
          decide_False, if_false]
        simpa using ih

theorem pendingCount_append (ps qs : List Proposal) :
    pendingCount (ps ++ qs) = pendingCount ps + pendingCount qs := by
  unfold pendingCount
  rw [List.filter_append, List.length_append]

theorem pendingCount_eq_zero_of_find?_none (ps : List Proposal)
    (h : ps.find? (fun p => p.status = .pending) = none) :
    pendingCount ps = 0 := by
  rw [List.find?_eq_none] at h
  unfold pendingCount
  rw [List.length_eq_zero, List.filter_eq_nil]
  exact h

/-- At most one pending proposal per team. -/
def atMostOnePending (g : GameState) : Prop :=
  ∀ t : TeamColor, pendingCount (g.proposalsOf t) ≤ 1

/-- Every team color is either `team` or `otherTeam team`. -/
theorem team_eq_or_other (t team : TeamColor) :
    t = team ∨ t = otherTeam team := by
  cases t <;> cases team <;> simp [otherTeam]

/-- Frame of a successful `addMessage`. -/
theorem addMessage_ok_proposals (g : GameState) (team : TeamColor)
    (pid content : String) (kind : MessageKind) (popt : Option String)
    (g' : GameState) (h : addMessage g team pid content kind popt = .ok g') :
    g'.redProposals = g.redProposals ∧
    g'.blueProposals = g.blueProposals := by
  unfold addMessage at h
  cases hp : g.player? pid <;> rw [hp] at h
  · cases h
  · simp only [Except.ok.injEq] at h
    subst h
    exact ⟨rfl, rfl⟩

/-- `proposalsOf` only depends on the two proposal-list fields. -/
theorem proposalsOf_congr (g1 g2 : GameState)
    (hr : g1.redProposals = g2.redProposals)
    (hb : g1.blueProposals = g2.blueProposals) (t : TeamColor) :
    g1.proposalsOf t = g2.proposalsOf t := by
  cases t
  · exact hr
  · exact hb

theorem setProposals_proposalsOf_other (g : GameState) (t : TeamColor)
    (ps : List Proposal) :
    (g.setProposals t ps).proposalsOf (otherTeam t) =
      g.proposalsOf (otherTeam t) := by
  cases t <;> rfl

theorem votedState_proposalsOf_other (g : GameState) (team : TeamColor)
    (pid proposalId : String) (decision : VoteDecision) (voter : Player) :
    (votedState g team pid proposalId decision voter).proposalsOf
      (otherTeam team) = g.proposalsOf (otherTeam team) := by
  cases team <;> rfl

theorem votedStatusState_proposalsOf_other (g : GameState)
    (team : TeamColor) (pid proposalId : String) (decision : VoteDecision)
    (voter : Player) (st : ProposalStatus) :
    (votedStatusState g team pid proposalId decision voter st).proposalsOf
      (otherTeam team) = g.proposalsOf (otherTeam team) := by
  cases team <;> rfl

/-- Everything a successful `voteOnProposal` implies: all guards held, and
the team's proposal list is the vote-recorded list, possibly with the voted
proposal's status resolved to a non-pending status; the other team's
proposals are untouched. -/
theorem voteOnProposal_ok_shape (g : GameState) (team : TeamColor)
    (pid proposalId : String) (decision : VoteDecision) (g' : GameState)
    (h : voteOnProposal g team pid proposalId decision = .ok g') :
    ∃ proposal voter,
      isTeamMember g team pid = true ∧
      (g.proposalsOf team).find? (fun p => p.id = proposalId) =
        some proposal ∧
      proposal.status = .pending ∧
      proposal.createdBy ≠ pid ∧
      g.player? pid = some voter ∧
      g'.proposalsOf (otherTeam team) = g.proposalsOf (otherTeam team) ∧
      (g'.proposalsOf team =
        setProposalVote (g.proposalsOf team) proposalId pid decision ∨
       ∃ st, st ≠ ProposalStatus.pending ∧
        g'.proposalsOf team =
          setProposalStatus
            (setProposalVote (g.proposalsOf team) proposalId pid decision)
            proposalId st) := by
  have hm : isTeamMember g team pid = true := by
    by_contra hm
    unfold voteOnProposal at h
    rw [if_pos (by simpa using hm)] at h
    cases h
  obtain ⟨proposal, hf⟩ : ∃ p, (g.proposalsOf team).find?
      (fun p => p.id = proposalId) = some p := by
    cases hf : (g.proposalsOf team).find? (fun p => p.id = proposalId) with
    | none =>
      unfold voteOnProposal at h
      rw [if_neg (by simp [hm]), hf] at h
      cases h
    | some p => exact ⟨p, rfl⟩
  have hpend : proposal.status = .pending := by
    by_contra hpend
    unfold voteOnProposal at h
    rw [if_neg (by simp [hm]), hf] at h
    dsimp only [] at h
    rw [if_pos (by simpa using hpend)] at h
    cases h
  have hown : proposal.createdBy ≠ pid := by
    intro hcb
    unfold voteOnProposal at h
    rw [if_neg (by simp [hm]), hf] at h
    dsimp only [] at h
    rw [if_neg (by simp [hpend]), if_pos hcb] at h
    cases h
  obtain ⟨voter, hvoter⟩ : ∃ p, g.player? pid = some p := by
    cases hp : g.player? pid with
    | none =>
      unfold voteOnProposal at h
      rw [if_neg (by simp [hm]), hf] at h
      dsimp only [] at h
      rw [if_neg (by simp [hpend]), if_neg hown] at h
      rw [show addMessage
          (g.setProposals team
            (setProposalVote (g.proposalsOf team) proposalId pid decision))
          team pid
          (((g.setProposals team
              (setProposalVote (g.proposalsOf team) proposalId pid
                decision)).player? pid).elim "" (fun p => p.name) ++
            " voted " ++ decision.str)
          .system (some proposalId) = .error .unknownPlayer from by
        simp [addMessage, hp]] at h
      cases h
    | some p => exact ⟨p, rfl⟩
  refine ⟨proposal, voter, hm, hf, hpend, hown, hvoter, ?_⟩
  rw [voteOnProposal_eq g team pid proposalId decision proposal voter
    hm hf hpend hown hvoter] at h
  split_ifs at h with hA hK hR
  · -- accepted, guess kind: resolveGuess ran
    obtain ⟨hr, hb⟩ := resolveGuess_proposals _ _ _ _ h
    constructor
    · rw [proposalsOf_congr g' _ hr hb,
        votedStatusState_proposalsOf_other]
    · right
      exact ⟨.accepted, by simp, by
        rw [proposalsOf_congr g' _ hr hb, votedStatusState_proposalsOf]⟩
  · -- accepted, end_turn kind
    simp only [Except.ok.injEq] at h
    subst h
    constructor
    · rw [proposalsOf_congr _
        (votedStatusState g team pid proposalId decision voter .accepted)
        (by simp) (by simp), votedStatusState_proposalsOf_other]
    · right
      exact ⟨.accepted, by simp, by
        rw [proposalsOf_congr _
          (votedStatusState g team pid proposalId decision voter .accepted)
          (by simp) (by simp), votedStatusState_proposalsOf]⟩
  · -- rejected
    simp only [Except.ok.injEq] at h
    subst h
    constructor
    · rw [proposalsOf_congr _
        (votedStatusState g team pid proposalId decision voter .rejected)
        (by simp) (by simp), votedStatusState_proposalsOf_other]
    · right
      exact ⟨.rejected, by simp, by
        rw [proposalsOf_congr _
          (votedStatusState g team pid proposalId decision voter .rejected)
          (by simp) (by simp), votedStatusState_proposalsOf]⟩
  · -- still pending
    simp only [Except.ok.injEq] at h
    subst h
    exact ⟨votedState_proposalsOf_other g team pid proposalId decision voter,
      Or.inl (votedState_proposalsOf g team pid proposalId decision voter)⟩

theorem convMsgState_proposalsOf (g : GameState) (team : TeamColor)
    (pid : String) (payloadWord : Option String) (pp : Proposal)
    (player : Player) (t : TeamColor) :
    (convMsgState g team pid payloadWord pp player).proposalsOf t =
      g.proposalsOf t := by
  cases t <;> rfl

theorem proposedState_proposalsOf_other (g : GameState) (team : TeamColor)
    (pid : String) (kind : ProposalKind) (payloadWord : Option String)
    (newId : String) (proposer : Player) :
    (proposedState g team pid kind payloadWord newId proposer).proposalsOf
      (otherTeam team) = g.proposalsOf (otherTeam team) := by
  cases team <;> rfl

theorem autoAcceptState_proposalsOf_other (g : GameState) (team : TeamColor)
    (pid : String) (kind : ProposalKind) (payloadWord : Option String)
    (newId : String) (proposer : Player) :
    (autoAcceptState g team pid kind payloadWord newId proposer).proposalsOf
      (otherTeam team) = g.proposalsOf (otherTeam team) := by
  unfold autoAcceptState
  rw [addSystemMessage_proposalsOf, setProposals_proposalsOf_other,
    proposedState_proposalsOf_other]

theorem length_setProposalVote (ps : List Proposal) (pid voter : String)
    (d : VoteDecision) : (setProposalVote ps pid voter d).length =
      ps.length := by
  simp [setProposalVote]

theorem length_setProposalStatus (ps : List Proposal) (pid : String)
    (st : ProposalStatus) : (setProposalStatus ps pid st).length =
      ps.length := by
  simp [setProposalStatus]

/-- Everything a successful `createProposal` implies for the proposal
lists: the other team is untouched, and the acting team either ends with at
most one pending proposal (fresh creation: the list had none pending and
gains exactly the new one) or with no more pending proposals than before
(identical-word conversion, which records a vote instead of creating). -/
theorem createProposal_ok_pendingBound (g : GameState) (team : TeamColor)
    (pid : String) (kind : ProposalKind) (payloadWord : Option String)
    (newId : String) (g' : GameState)
    (h : createProposal g team pid kind payloadWord newId = .ok g') :
    g'.proposalsOf (otherTeam team) = g.proposalsOf (otherTeam team) ∧
    (pendingCount (g'.proposalsOf team) ≤ 1 ∨
     pendingCount (g'.proposalsOf team) ≤
       pendingCount (g.proposalsOf team)) := by
  have hm : isTeamMember g team pid = true := by
    by_contra hm
    unfold createProposal at h
    rw [if_pos (by simpa using hm)] at h
    cases h
  have hnw : g.winner = none := by
    cases hw : g.winner with
    | none => rfl
    | some w =>
      unfold createProposal at h
      rw [if_neg (by simp [hm]), if_pos (by simp [hw])] at h
      cases h
  have hactive : g.turn.activeTeam = team := by
    by_contra ha
    unfold createProposal at h
    rw [if_neg (by simp [hm]), if_neg (by simp [hnw]), if_pos ha] at h
    cases h
  have hphase : g.turn.phase = .guess := by
    by_contra hp
    unfold createProposal at h
    rw [if_neg (by simp [hm]), if_neg (by simp [hnw]),
      if_neg (by simp [hactive]), if_pos hp] at h
    cases h
  cases hpe : (g.proposalsOf team).find? (fun p => p.status = .pending) with
  | some pp =>
    by_cases hconv : kind = .guess ∧ pp.kind = .guess ∧
        payloadWord.map (fun w => jsToLower (jsTrim w)) =
          pp.payloadWord.map jsToLower ∧
        pp.createdBy ≠ pid
    · obtain ⟨hk, hpk, hwd, hot⟩ := hconv
      subst hk
      obtain ⟨player, hpl⟩ : ∃ p, g.player? pid = some p := by
        cases hp : g.player? pid with
        | none =>
          unfold createProposal at h
          rw [if_neg (by simp [hm]), if_neg (by simp [hnw]),
            if_neg (by simp [hactive]), if_neg (by simp [hphase]), hpe] at h
          dsimp only [] at h
          rw [if_pos ⟨rfl, hpk, hwd, hot⟩, hp] at h
          cases h
        | some p => exact ⟨p, rfl⟩
      rw [createProposal_pending_convert_eq g team pid payloadWord newId pp
        player hm hnw hactive hphase hpe hpk hwd hot hpl] at h
      obtain ⟨_, _, _, _, _, _, _, hother, hshape⟩ :=
        voteOnProposal_ok_shape _ _ _ _ _ _ h
      rw [convMsgState_proposalsOf] at hother
      constructor
      · exact hother
      · right
        rcases hshape with hsh | ⟨st, hst, hsh⟩
        · rw [hsh, convMsgState_proposalsOf, pendingCount_setProposalVote]
        · rw [hsh, convMsgState_proposalsOf]
          exact Nat.le_trans
            (pendingCount_setProposalStatus_le _ _ _ hst)
            (by rw [pendingCount_setProposalVote])
    · rw [createProposal_pending_reject_eq g team pid kind payloadWord newId
        pp hm hnw hactive hphase hpe hconv] at h
      cases h
  | none =>
    have hzero : pendingCount (g.proposalsOf team) = 0 :=
      pendingCount_eq_zero_of_find?_none _ hpe
    cases hwc : guessWordCheck g kind payloadWord with
    | error e =>
      unfold createProposal at h
      rw [if_neg (by simp [hm]), if_neg (by simp [hnw]),
        if_neg (by simp [hactive]), if_neg (by simp [hphase]), hpe,
        hwc] at h
      cases h
    | ok u =>
      cases u
      obtain ⟨proposer, hpl⟩ : ∃ p, g.player? pid = some p := by
        cases hp : g.player? pid with
        | none =>
          unfold createProposal at h
          rw [if_neg (by simp [hm]), if_neg (by simp [hnw]),
            if_neg (by simp [hactive]), if_neg (by simp [hphase]), hpe,
            hwc] at h
          dsimp only [] at h
          rw [hp] at h
          cases h
        | some p => exact ⟨p, rfl⟩
      rw [createProposal_noPending_eq g team pid kind payloadWord newId
        proposer hm hnw hactive hphase hpe hwc hpl] at h
      have hcount1 : pendingCount (g.proposalsOf team ++
          [newProposal team pid kind payloadWord newId]) = 1 := by
        rw [pendingCount_append, hzero]
        rfl
      split_ifs at h with hth hk
      · -- solo auto-accept, guess kind: resolveGuess ran
        obtain ⟨hr, hb⟩ := resolveGuess_proposals _ _ _ _ h
        constructor
        · rw [proposalsOf_congr g' _ hr hb,
            autoAcceptState_proposalsOf_other]
        · left
          rw [proposalsOf_congr g' _ hr hb, autoAcceptState_proposalsOf]
          exact Nat.le_trans
            (pendingCount_setProposalStatus_le _ _ _ (by simp))
            (by rw [hcount1])
      · -- solo auto-accept, end_turn kind
        simp only [Except.ok.injEq] at h
        subst h
        constructor
        · rw [proposalsOf_congr _
            (autoAcceptState g team pid kind payloadWord newId proposer)
            (by simp) (by simp), autoAcceptState_proposalsOf_other]
        · left
          rw [proposalsOf_congr _
            (autoAcceptState g team pid kind payloadWord newId proposer)
            (by simp) (by simp), autoAcceptState_proposalsOf]
          exact Nat.le_trans
            (pendingCount_setProposalStatus_le _ _ _ (by simp))
            (by rw [hcount1])
      · -- plain creation, stays pending
        simp only [Except.ok.injEq] at h
        subst h
        constructor
        · rw [proposedState_proposalsOf_other]
        · left
          rw [proposedState_proposalsOf, hcount1]

/-- Frame of a successful `postChatMessage`. -/
theorem postChatMessage_ok_proposals (g : GameState) (team : TeamColor)
    (pid content : String) (g' : GameState)
    (h : postChatMessage g team pid content = .ok g') :
    g'.redProposals = g.redProposals ∧
    g'.blueProposals = g.blueProposals := by
  unfold postChatMessage at h
  split_ifs at h
  exact addMessage_ok_proposals _ _ _ _ _ _ _ h

/-- Frame of a successful `submitHint`. -/
theorem submitHint_ok_proposals (g : GameState) (team : TeamColor)
    (pid word : String) (count : Int) (targets : Option (List String))
    (g' : GameState) (h : submitHint g team pid word count targets = .ok g') :
    g'.redProposals = g.redProposals ∧
    g'.blueProposals = g.blueProposals := by
  unfold submitHint at h
  by_cases h1 : isTeamMember g team pid = true
  case neg => rw [if_pos (by simpa using h1)] at h; cases h
  rw [if_neg (by simp [h1])] at h
  by_cases h2 : g.winner.isSome = true
  case pos => rw [if_pos h2] at h; cases h
  rw [if_neg h2] at h
  by_cases h3 : g.turn.activeTeam = team
  case neg => rw [if_pos h3] at h; cases h
  rw [if_neg (by simp [h3])] at h
  by_cases h4 : g.turn.phase = TurnPhase.hint
  case neg => rw [if_pos h4] at h; cases h
  rw [if_neg (by simp [h4])] at h
  cases hp : g.player? pid with
  | none => rw [hp] at h; cases h
  | some player =>
    rw [hp] at h
    dsimp only [] at h
    by_cases h5 : player.role = PlayerRole.spymaster
    case neg => rw [if_pos h5] at h; cases h
    rw [if_neg (by simp [h5])] at h
    by_cases h6 : word = "" ∨ (jsSplitWhitespace (jsTrim word)).length ≠ 1
    case pos => rw [if_pos h6] at h; cases h
    rw [if_neg h6] at h
    by_cases h7 : count < 1
    case pos => rw [if_pos h7] at h; cases h
    rw [if_neg h7] at h
    by_cases h8 : (g.cards.map (fun c => jsToLower c.word)).contains
        (jsToLower (jsTrim word)) = true
    case pos => rw [if_pos h8] at h; cases h
    rw [if_neg h8] at h
    simp only [Except.ok.injEq] at h
    subst h
    constructor <;> simp

/-- Frame of a successful `endBanter`. -/
theorem endBanter_ok_proposals (g : GameState) (g' : GameState)
    (h : endBanter g = .ok g') :
    g'.redProposals = g.redProposals ∧
    g'.blueProposals = g.blueProposals := by
  unfold endBanter at h
  by_cases hp : g.turn.phase = TurnPhase.banter
  · rw [if_neg (by simp [hp])] at h
    simp only [Except.ok.injEq] at h
    subst h
    constructor <;> simp
  · rw [if_pos hp] at h
    cases h

/-- Frame of `forfeitTurn`. -/
theorem forfeitTurn_proposals (g : GameState) (team : TeamColor)
    (reason : String) :
    (forfeitTurn g team reason).redProposals = g.redProposals ∧
    (forfeitTurn g team reason).blueProposals = g.blueProposals := by
  constructor <;> simp [forfeitTurn]

/-- One successful mutating call into the Game State Store (`gameStore.ts`
entry points that can alter game state). -/
inductive StoreStep : GameState → GameState → Prop where
  | chat (team : TeamColor) (pid content : String) (g g' : GameState) :
      postChatMessage g team pid content = .ok g' → StoreStep g g'
  | hint (team : TeamColor) (pid word : String) (count : Int)
      (targets : Option (List String)) (g g' : GameState) :
      submitHint g team pid word count targets = .ok g' → StoreStep g g'
  | propose (team : TeamColor) (pid : String) (kind : ProposalKind)
      (payloadWord : Option String) (newId : String) (g g' : GameState) :
      createProposal g team pid kind payloadWord newId = .ok g' →
      StoreStep g g'
  | vote (team : TeamColor) (pid proposalId : String)
      (decision : VoteDecision) (g g' : GameState) :
      voteOnProposal g team pid proposalId decision = .ok g' →
      StoreStep g g'
  | banter (g g' : GameState) : endBanter g = .ok g' → StoreStep g g'
  | forfeit (team : TeamColor) (reason : String) (g g' : GameState) :
      forfeitTurn g team reason = g' → StoreStep g g'

/-! ## Theorems -/

/-- **C1** (claimed): whenever the game enters the banter phase, the turn
state's `previousTeam` is set to the team that was active.  **Refuted by the
code**: `switchTurn` — the single transition into banter, used by guess
resolution, accepted `end_turn` proposals and forfeiture — never writes
`previousTeam` (no assignment to it exists anywhere in the sources), so
after a freshly created game forfeits its first turn, the game is in banter
with `previousTeam` still absent rather than the outgoing team. -/
theorem c1_previousTeam_never_recorded :
    (∀ g : GameState, (switchTurn g).turn.phase = .banter ∧
      (switchTurn g).turn.previousTeam = g.turn.previousTeam) ∧
    (∀ (g : GameState) (t : TeamColor) (reason : String),
      (forfeitTurn g t reason).turn.previousTeam = g.turn.previousTeam) ∧
    (forfeitTurn baseGame .red "Turn forfeited.").turn.phase = .banter ∧
    (forfeitTurn baseGame .red "Turn forfeited.").turn.activeTeam = .red ∧
    (forfeitTurn baseGame .red "Turn forfeited.").turn.previousTeam ≠
      some .red := by
  refine ⟨fun g => ⟨rfl, rfl⟩, fun g t reason => ?_, by decide, by decide,
    by decide⟩
  by_cases h : (g.player? SYSTEM_PLAYER_ID).isSome <;>
    simp [forfeitTurn, addSystemMessage, ensureSystemPlayer, switchTurn, h]

/-- **C9**: forfeiting a turn appends exactly one system chat message with
the given reason and performs the end-of-turn transition: phase → banter,
`activeTeam` unchanged, hint fields and guess counters cleared, and the
winner (as well as the board and the proposals) untouched. -/
theorem c9_forfeitTurn_frame (g : GameState) (team : TeamColor)
    (reason : String) :
    (forfeitTurn g team reason).chatLog = g.chatLog ++
      [{ team, playerId := SYSTEM_PLAYER_ID, playerName := "System",
         kind := .system, content := reason, proposalId := none,
         phase := g.turn.phase }] ∧
    (forfeitTurn g team reason).turn.phase = .banter ∧
    (forfeitTurn g team reason).turn.activeTeam = g.turn.activeTeam ∧
    (forfeitTurn g team reason).turn.hintWord = none ∧
    (forfeitTurn g team reason).turn.hintCount = none ∧
    (forfeitTurn g team reason).turn.hintTargets = none ∧
    (forfeitTurn g team reason).turn.guessesMade = 0 ∧
    (forfeitTurn g team reason).turn.maxGuesses = 0 ∧
    (forfeitTurn g team reason).winner = g.winner ∧
    (forfeitTurn g team reason).cards = g.cards ∧
    (forfeitTurn g team reason).redProposals = g.redProposals ∧
    (forfeitTurn g team reason).blueProposals = g.blueProposals := by
  by_cases h : (g.player? SYSTEM_PLAYER_ID).isSome <;>
    simp [forfeitTurn, addSystemMessage, ensureSystemPlayer, switchTurn, h]

/-- General credit consumption by a gated wait sequence: with gating
enabled and at least as many credits as calls, every call resolves
immediately and each consumes one credit. -/
theorem waitSeq_immediate (tokens : List Nat) (s : TtsGate)
    (he : s.enabled = true) (hc : tokens.length ≤ s.credits) :
    (waitSeq s tokens).2 = tokens.map (fun _ => WaitOutcome.immediate) ∧
    (waitSeq s tokens).1.credits = s.credits - tokens.length := by
  induction tokens generalizing s with
  | nil => simp [waitSeq]
  | cons t ts ih =>
    have hpos : 0 < s.credits := by
      simp only [List.length_cons] at hc
      omega
    have hwait : waitForTtsAck s t =
        ({ s with credits := s.credits - 1 }, .immediate) := by
      simp [waitForTtsAck, he, hpos]
    have hrec := ih { s with credits := s.credits - 1 } he
      (by simp only [List.length_cons] at hc; simp; omega)
    simp only [waitSeq, hwait] at *
    refine ⟨?_, ?_⟩
    · simp [hrec.1]
    · rw [hrec.2]
      simp only [List.length_cons]
      omega

/-- **C2**: an `ackTts` that finds no blocked waiter banks one credit,
capped at `BUFFER_SIZE = 5`, so any number of rapid acks never banks more
than 5; and right after gating is enabled, the first `BUFFER_SIZE` waits all
resolve immediately, each consuming one credit. -/
theorem c2_delivery_gate :
    (∀ s : TtsGate, s.waitQueue = [] →
      (ackTts s).1.credits =
        (if s.credits < BUFFER_SIZE then s.credits + 1 else s.credits) ∧
      (ackTts s).2 = none) ∧
    (∀ (n : Nat) (s : TtsGate), s.credits ≤ BUFFER_SIZE →
      (iterAck n s).credits ≤ BUFFER_SIZE) ∧
    (∀ (s₀ : TtsGate) (tokens : List Nat), tokens.length ≤ BUFFER_SIZE →
      (waitSeq (setTtsMode s₀ true).1 tokens).2 =
        tokens.map (fun _ => WaitOutcome.immediate) ∧
      (waitSeq (setTtsMode s₀ true).1 tokens).1.credits =
        BUFFER_SIZE - tokens.length) := by
  refine ⟨?_, ?_, ?_⟩
  · intro s hq
    simp [ackTts, hq]
    split <;> simp
  · intro n
    induction n with
    | zero => intro s hs; exact hs
    | succ m ih =>
      intro s hs
      have hstep : (ackTts s).1.credits ≤ BUFFER_SIZE := by
        unfold ackTts
        match hq : s.waitQueue with
        | _ :: _ => exact hs
        | [] =>
          simp only []
          split <;> simp_all <;> omega
      exact ih _ hstep
  · intro s₀ tokens hlen
    have hgate : (setTtsMode s₀ true).1 =
        { enabled := true, credits := BUFFER_SIZE, waitQueue := [] } := by
      simp [setTtsMode]
    rw [hgate]
    exact waitSeq_immediate tokens _ rfl hlen

/-- The state after step (1) of guess resolution: the reveal is logged and
the card flipped (in the source: `addSystemMessage` followed by
`card.revealed = true`). -/
def afterReveal (g : GameState) (team : TeamColor) (w : String)
    (card : Card) : GameState :=
  let g1 := addSystemMessage g team
    ("Revealed \"" ++ card.word ++ "\" → " ++ card.owner.str)
  { g1 with cards := revealFirst g1.cards w }

/-- Modelled from the spec's words: the strict priority order (2)–(6) of
guess resolution — assassin first, then the guessing team's sweep, then the
other team's sweep, then wrong-owner turn end, then the guess counter —
applied to the post-reveal state.  Used only to compare against
`resolveGuess`. -/
def guessOutcomeSpec (gr : GameState) (team : TeamColor) (card : Card) :
    GameState :=
  if card.owner = .assassin then
    finishGame gr (otherTeam team) (team.str ++ " hit the assassin!")
  else if countRemaining gr team = 0 then
    finishGame gr team (team.str ++ " found all their words")
  else if countRemaining gr (otherTeam team) = 0 then
    finishGame gr (otherTeam team)
      ("All " ++ (otherTeam team).str ++ " words were revealed")
  else if card.owner ≠ CardOwner.ofTeam team then switchTurn gr
  else
    let gr' := { gr with turn :=
      { gr.turn with guessesMade := gr.turn.guessesMade + 1 } }
    if gr'.turn.guessesMade ≥ gr'.turn.maxGuesses then switchTurn gr'
    else gr'

/-- Refinement equation for `resolveGuess` on a found unrevealed card. -/
theorem resolveGuess_eq_of_found (g : GameState) (team : TeamColor)
    (w : String) (card : Card)
    (hfind : g.cards.find? (fun c => jsToLower c.word = jsToLower w) = some card)
    (hrev : card.revealed = false) :
    resolveGuess g team w =
      .ok (guessOutcomeSpec (afterReveal g team w card) team card) := by
  unfold resolveGuess guessOutcomeSpec afterReveal
  rw [hfind]
  simp only [hrev, Bool.false_eq_true, if_false, apply_ite (Except.ok (ε := GameError))]

/-- **C4**: on a validated unrevealed board word, `resolveGuess` first
reveals the card and logs the reveal, then applies exactly the claimed
priority order (captured by `guessOutcomeSpec`); in particular revealing
the assassin always finishes the game with the other team winning. -/
theorem c4_resolveGuess_priority (g : GameState) (team : TeamColor)
    (w : String) (card : Card)
    (hfind : g.cards.find? (fun c => jsToLower c.word = jsToLower w) = some card)
    (hrev : card.revealed = false) :
    resolveGuess g team w =
      .ok (guessOutcomeSpec (afterReveal g team w card) team card) ∧
    (card.owner = .assassin →
      ∃ g', resolveGuess g team w = .ok g' ∧
        g'.winner = some (otherTeam team)) := by
  have hmain := resolveGuess_eq_of_found g team w card hfind hrev
  refine ⟨hmain, fun hass => ⟨_, hmain, ?_⟩⟩
  simp [guessOutcomeSpec, hass]

/-- Concrete instance of `c4_resolveGuess_priority`: on `baseGame`, red
guessing the assassin word `dagger` ends the game with blue winning, even
though red still has unrevealed words. -/
theorem c4_resolveGuess_priority_witness :
    ∃ g', resolveGuess baseGame .red "dagger" = .ok g' ∧
      g'.winner = some (otherTeam .red) :=
  (c4_resolveGuess_priority baseGame .red "dagger"
    { word := "dagger", owner := .assassin, revealed := false }
    (by decide) (by decide)).2 (by decide)

/-- The conjunction of `submitHint`'s preconditions: caller on the team, no
winner, the caller's team active, hint phase, caller a spymaster, the word
nonempty and a single whitespace-delimited token after trimming, a count of
at least 1, and the trimmed lowercased word not on the board. -/
def submitHintPre (g : GameState) (team : TeamColor) (pid : String)
    (word : String) (count : Int) : Prop :=
  isTeamMember g team pid = true ∧
  g.winner = none ∧
  g.turn.activeTeam = team ∧
  g.turn.phase = .hint ∧
  (∃ p, g.player? pid = some p ∧ p.role = .spymaster) ∧
  word ≠ "" ∧
  (jsSplitWhitespace (jsTrim word)).length = 1 ∧
  1 ≤ count ∧
  (g.cards.map (fun c => jsToLower c.word)).contains
    (jsToLower (jsTrim word)) = false

/-- **C7**: `submitHint` succeeds exactly when all its preconditions hold
(any failing precondition yields an error, leaving the state unchanged —
the model is functional, and in the source every throw happens before any
mutation), and on success it sets phase = guess, `guessesMade = 0`,
`maxGuesses = count + 1`, populates the hint fields, and touches neither
board, winner nor proposals. -/
theorem c7_submitHint_spec (g : GameState) (team : TeamColor) (pid : String)
    (word : String) (count : Int) (targets : Option (List String)) :
    (submitHintPre g team pid word count →
      exOk (submitHint g team pid word count targets) = true ∧
      (exGet g (submitHint g team pid word count targets)).turn.phase =
        .guess ∧
      (exGet g (submitHint g team pid word count targets)).turn.guessesMade
        = 0 ∧
      (exGet g (submitHint g team pid word count targets)).turn.maxGuesses
        = count + 1 ∧
      (exGet g (submitHint g team pid word count targets)).turn.hintWord =
        some (jsToLower (jsTrim word)) ∧
      (exGet g (submitHint g team pid word count targets)).turn.hintCount =
        some count ∧
      (exGet g (submitHint g team pid word count targets)).turn.activeTeam =
        g.turn.activeTeam ∧
      (exGet g (submitHint g team pid word count targets)).cards = g.cards ∧
      (exGet g (submitHint g team pid word count targets)).winner =
        g.winner ∧
      (exGet g (submitHint g team pid word count targets)).redProposals =
        g.redProposals ∧
      (exGet g (submitHint g team pid word count targets)).blueProposals =
        g.blueProposals) ∧
    (¬ submitHintPre g team pid word count →
      ∃ e, submitHint g team pid word count targets = .error e) := by
  constructor
  · rintro ⟨h1, h2, h3, h4, ⟨p, hp, hrole⟩, h6, h7, h8, h9⟩
    have h2' : g.winner.isSome = false := by simp [h2]
    have h8' : ¬ count < 1 := by omega
    simp only [submitHint, h1, h2', h3, h4, hp, hrole, h6, h7, h8', h9]
    simp [exOk, exGet]
  · intro hnp
    unfold submitHint
    by_cases h1 : isTeamMember g team pid = true
    case neg => simp [h1]
    by_cases h2 : g.winner.isSome
    case pos => simp [h1, h2]
    by_cases h3 : g.turn.activeTeam = team
    case neg => simp [h1, h2, h3]
    by_cases h4 : g.turn.phase = TurnPhase.hint
    case neg => simp [h1, h2, h3, h4]
    match hp : g.player? pid with
    | none => simp [h1, h2, h3, h4, hp]
    | some p =>
      by_cases h5 : p.role = PlayerRole.spymaster
      case neg => simp [h1, h2, h3, h4, hp, h5]
      by_cases h6 : word = "" ∨ (jsSplitWhitespace (jsTrim word)).length ≠ 1
      case pos => simp [h1, h2, h3, h4, hp, h5, h6]
      by_cases h8 : count < 1
      case pos => simp [h1, h2, h3, h4, hp, h5, h6, h8]
      by_cases h9 : (g.cards.map (fun c => jsToLower c.word)).contains
          (jsToLower (jsTrim word)) = true
      case pos =>
        have h9' : ∃ a ∈ g.cards, jsToLower a.word = jsToLower (jsTrim word) := by
          simpa using h9
        simp [h1, h2, h3, h4, hp, h5, h6, h8, h9']
      exact absurd ⟨h1, by simp at h2; exact h2, h3, h4, ⟨p, hp, h5⟩,
        by push_neg at h6; exact h6.1, by push_neg at h6; exact h6.2,
        by omega, by simpa using h9⟩ hnp

/-- Concrete instance of `c7_submitHint_spec`: red's spymaster submits
`"ocean" (2)` on `baseGame` (success path) and `"apple" (2)` (a board word,
rejected). -/
theorem c7_submitHint_spec_witness :
    (exGet baseGame (submitHint baseGame .red "rs" "ocean" 2 none)).turn.maxGuesses = 3 ∧
    (∃ e, submitHint baseGame .red "rs" "apple" 2 none = .error e) := by
  constructor
  · have h := (c7_submitHint_spec baseGame .red "rs" "ocean" 2 none).1
      (by refine ⟨by decide, rfl, rfl, rfl, ⟨redSpy, by decide, rfl⟩,
        by decide, by decide, by decide, by decide⟩)
    exact h.2.2.2.1
  · exact (c7_submitHint_spec baseGame .red "rs" "apple" 2 none).2
      (by intro hpre; exact absurd hpre.2.2.2.2.2.2.2.2 (by decide))

/-- **C5**: on a vote over a pending proposal the recorded tally (over the
votes including the new one) decides the outcome: status becomes accepted
exactly when the accept votes reach `ceil(voterCount/2)` (this branch is
checked first, so it wins even if the reject condition also holds), becomes
rejected exactly when twice the reject votes strictly exceed `voterCount`,
and stays pending otherwise; and a proposal created on a team whose
operative count is 1 (`voterCount = 0`) is auto-accepted at creation with
no vote recorded. -/
theorem c5_voting_thresholds (g : GameState) (team : TeamColor)
    (pid proposalId : String) (decision : VoteDecision)
    (proposal : Proposal) (voter : Player)
    (hmem : isTeamMember g team pid = true)
    (hfind : (g.proposalsOf team).find? (fun p => p.id = proposalId) =
      some proposal)
    (hpend : proposal.status = .pending)
    (hown : proposal.createdBy ≠ pid)
    (hvoter : g.player? pid = some voter) :
    ((tallyAccepts (recordSet proposal.votes pid decision) ≥
        requiredVotes ((operativeCount g team : Int) - 1) →
      ∀ g', voteOnProposal g team pid proposalId decision = .ok g' →
        proposalStatusIn g' team proposalId = some .accepted) ∧
     (proposal.kind = .end_turn →
      tallyAccepts (recordSet proposal.votes pid decision) ≥
        requiredVotes ((operativeCount g team : Int) - 1) →
      ∃ g', voteOnProposal g team pid proposalId decision = .ok g' ∧
        proposalStatusIn g' team proposalId = some .accepted) ∧
     (¬ (tallyAccepts (recordSet proposal.votes pid decision) ≥
        requiredVotes ((operativeCount g team : Int) - 1)) →
      2 * tallyRejects (recordSet proposal.votes pid decision) >
        (operativeCount g team : Int) - 1 →
      ∃ g', voteOnProposal g team pid proposalId decision = .ok g' ∧
        proposalStatusIn g' team proposalId = some .rejected) ∧
     (¬ (tallyAccepts (recordSet proposal.votes pid decision) ≥
        requiredVotes ((operativeCount g team : Int) - 1)) →
      ¬ (2 * tallyRejects (recordSet proposal.votes pid decision) >
        (operativeCount g team : Int) - 1) →
      ∃ g', voteOnProposal g team pid proposalId decision = .ok g' ∧
        proposalStatusIn g' team proposalId = some .pending)) ∧
    (∀ (g0 : GameState) (team0 : TeamColor) (pid0 : String)
        (kind0 : ProposalKind) (pw0 : Option String) (newId0 : String)
        (proposer : Player),
      isTeamMember g0 team0 pid0 = true → g0.winner = none →
      g0.turn.activeTeam = team0 → g0.turn.phase = .guess →
      (g0.proposalsOf team0).find? (fun p => p.status = .pending) = none →
      guessWordCheck g0 kind0 pw0 = .ok () →
      g0.player? pid0 = some proposer →
      operativeCount g0 team0 = 1 →
      (∀ p ∈ g0.proposalsOf team0, p.id ≠ newId0) →
      ∃ g', createProposal g0 team0 pid0 kind0 pw0 newId0 = .ok g' ∧
        proposalStatusIn g' team0 newId0 = some .accepted ∧
        proposalVotesIn g' team0 newId0 = some []) := by
  have hv := voteOnProposal_eq g team pid proposalId decision proposal voter
    hmem hfind hpend hown hvoter
  refine ⟨⟨?_, ?_, ?_, ?_⟩, ?_⟩
  · intro hA g' hok
    rw [hv, if_pos hA] at hok
    by_cases hk : proposal.kind = .guess
    · rw [if_pos hk] at hok
      obtain ⟨hr, hb⟩ := resolveGuess_proposals _ _ _ _ hok
      rw [proposalStatusIn_congr g'
        (votedStatusState g team pid proposalId decision voter .accepted)
        hr hb]
      exact statusIn_votedStatusState g team pid proposalId decision voter
        .accepted proposal hfind
    · rw [if_neg hk] at hok
      simp only [Except.ok.injEq] at hok
      subst hok
      rw [proposalStatusIn_congr _
        (votedStatusState g team pid proposalId decision voter .accepted)
        (by simp) (by simp)]
      exact statusIn_votedStatusState g team pid proposalId decision voter
        .accepted proposal hfind
  · intro hk hA
    have hkg : ¬ proposal.kind = .guess := by simp [hk]
    refine ⟨_, by rw [hv, if_pos hA, if_neg hkg], ?_⟩
    rw [proposalStatusIn_congr _
      (votedStatusState g team pid proposalId decision voter .accepted)
      (by simp) (by simp)]
    exact statusIn_votedStatusState g team pid proposalId decision voter
      .accepted proposal hfind
  · intro hA hR
    refine ⟨_, by rw [hv, if_neg hA, if_pos hR], ?_⟩
    rw [proposalStatusIn_congr _
      (votedStatusState g team pid proposalId decision voter .rejected)
      (by simp) (by simp)]
    exact statusIn_votedStatusState g team pid proposalId decision voter
      .rejected proposal hfind
  · intro hA hR
    refine ⟨_, by rw [hv, if_neg hA, if_neg hR], ?_⟩
    rw [statusIn_votedState g team pid proposalId decision voter proposal
      hfind, hpend]
  · intro g0 team0 pid0 kind0 pw0 newId0 proposer hm hw ha hp hnp hwc hpl
      hopc1 hfresh
    have hv0 : requiredVotes ((operativeCount g0 team0 : Int) - 1) = 0 := by
      rw [hopc1]; decide
    have hce := createProposal_noPending_eq g0 team0 pid0 kind0 pw0 newId0
      proposer hm hw ha hp hnp hwc hpl
    rw [hce, if_pos hv0]
    by_cases hk : kind0 = ProposalKind.guess
    · subst hk
      rw [if_pos rfl]
      unfold guessWordCheck at hwc
      rw [if_pos rfl] at hwc
      cases pw0 with
      | none => cases hwc
      | some w =>
        dsimp only [] at hwc
        by_cases he : jsTrim w = ""
        · rw [if_pos he] at hwc; cases hwc
        · rw [if_neg he] at hwc
          cases hfound : g0.cards.find?
              (fun c => jsToLower c.word = jsToLower (jsTrim w)) with
          | none => rw [hfound] at hwc; cases hwc
          | some card =>
            rw [hfound] at hwc
            by_cases hrev : card.revealed = true
            · simp only [hrev, if_true] at hwc; cases hwc
            · simp only [Bool.not_eq_true] at hrev
              simp only [Option.map_some', Option.getD_some]
              have hfd2 : (autoAcceptState g0 team0 pid0 .guess (some w)
                  newId0 proposer).cards.find?
                  (fun c => jsToLower c.word = jsToLower (jsTrim w)) =
                  some card := by
                rw [autoAcceptState_cards]; exact hfound
              have hc4 := resolveGuess_eq_of_found _ team0 (jsTrim w) card
                hfd2 hrev
              refine ⟨_, hc4, ?_, ?_⟩
              · obtain ⟨hr, hb⟩ := resolveGuess_proposals _ _ _ _ hc4
                rw [proposalStatusIn_congr _ (autoAcceptState g0 team0 pid0
                  .guess (some w) newId0 proposer) hr hb]
                exact (statusIn_autoAcceptState g0 team0 pid0 .guess (some w)
                  newId0 proposer hfresh).1
              · obtain ⟨hr, hb⟩ := resolveGuess_proposals _ _ _ _ hc4
                rw [proposalVotesIn_congr _ (autoAcceptState g0 team0 pid0
                  .guess (some w) newId0 proposer) hr hb]
                exact (statusIn_autoAcceptState g0 team0 pid0 .guess (some w)
                  newId0 proposer hfresh).2
    · rw [if_neg hk]
      refine ⟨_, rfl, ?_, ?_⟩
      · rw [proposalStatusIn_congr _ (autoAcceptState g0 team0 pid0 kind0
          pw0 newId0 proposer) (by simp) (by simp)]
        exact (statusIn_autoAcceptState g0 team0 pid0 kind0 pw0 newId0
          proposer hfresh).1
      · rw [proposalVotesIn_congr _ (autoAcceptState g0 team0 pid0 kind0
          pw0 newId0 proposer) (by simp) (by simp)]
        exact (statusIn_autoAcceptState g0 team0 pid0 kind0 pw0 newId0
          proposer hfresh).2

/-- A pending guess proposal for `apple` created by `r1`. -/
def votingP1 : Proposal :=
  { id := "p1", team := .red, kind := .guess, payloadWord := some "apple",
    status := .pending, createdBy := "r1", votes := [] }

/-- `baseGame` in red's guess phase with `votingP1` pending. -/
def votingGame : GameState :=
  { baseGame with
    turn := { activeTeam := .red, phase := .guess,
              hintWord := some "fruit", hintCount := some 2,
              guessesMade := 0, maxGuesses := 3 }
    redProposals := [votingP1] }

/-- `baseGame` in blue's guess phase (blue has a single operative). -/
def soloGame : GameState :=
  { baseGame with
    turn := { activeTeam := .blue, phase := .guess,
              hintWord := some "metal", hintCount := some 1,
              guessesMade := 0, maxGuesses := 2 } }

/-- Concrete instance of `c5_voting_thresholds`: `r2`'s accept vote on the
two-operative red team (threshold 1) accepts the pending proposal, and a
solo-operative blue `end_turn` proposal is auto-accepted with no votes. -/
theorem c5_voting_thresholds_witness :
    proposalStatusIn
      (exGet votingGame (voteOnProposal votingGame .red "r2" "p1" .accept))
      .red "p1" = some .accepted ∧
    (∃ g', createProposal soloGame .blue "b1" .end_turn none "np1" =
        .ok g' ∧
      proposalStatusIn g' .blue "np1" = some .accepted ∧
      proposalVotesIn g' .blue "np1" = some []) := by
  constructor
  · exact (c5_voting_thresholds votingGame .red "r2" "p1" .accept votingP1
      redOp2 (by decide) (by decide) (by decide) (by decide)
      (by decide)).1.1 (by decide) _ rfl
  · exact (c5_voting_thresholds votingGame .red "r2" "p1" .accept votingP1
      redOp2 (by decide) (by decide) (by decide) (by decide)
      (by decide)).2 soloGame .blue "b1" .end_turn none "np1" blueOp1
      (by decide) rfl rfl rfl (by decide) rfl (by decide)
      (by decide) (by decide)

/-- Votes readout after `votedStatusState`. -/
theorem votesIn_votedStatusState (g : GameState) (team : TeamColor)
    (pid proposalId : String) (decision : VoteDecision) (voter : Player)
    (st : ProposalStatus) (proposal : Proposal)
    (hfind : (g.proposalsOf team).find? (fun p => p.id = proposalId) =
      some proposal) :
    proposalVotesIn (votedStatusState g team pid proposalId decision voter st)
      team proposalId = some (recordSet proposal.votes pid decision) := by
  unfold proposalVotesIn
  rw [votedStatusState_proposalsOf, find?_setProposalStatus,
    find?_setProposalVote, hfind]
  simp

/-- Votes readout after `votedState`. -/
theorem votesIn_votedState (g : GameState) (team : TeamColor)
    (pid proposalId : String) (decision : VoteDecision) (voter : Player)
    (proposal : Proposal)
    (hfind : (g.proposalsOf team).find? (fun p => p.id = proposalId) =
      some proposal) :
    proposalVotesIn (votedState g team pid proposalId decision voter)
      team proposalId = some (recordSet proposal.votes pid decision) := by
  unfold proposalVotesIn
  rw [votedState_proposalsOf, find?_setProposalVote, hfind]
  simp

/-- **C10**: any team member other than the proposer — the hypotheses place
no constraint on the voter's role, so in particular the team's spymaster —
may vote on a pending proposal; every recorded vote lands in the
proposal's vote record (and hence in the accept/reject tallies), while the
acceptance threshold is `requiredVotes` of the operative count minus one
only: on an `end_turn` proposal the call succeeds and the proposal ends up
accepted exactly when the tally over all recorded votes reaches that
threshold. -/
theorem c10_any_member_votes (g : GameState) (team : TeamColor)
    (pid proposalId : String) (decision : VoteDecision)
    (proposal : Proposal) (voter : Player)
    (hmem : isTeamMember g team pid = true)
    (hfind : (g.proposalsOf team).find? (fun p => p.id = proposalId) =
      some proposal)
    (hpend : proposal.status = .pending)
    (hown : proposal.createdBy ≠ pid)
    (hvoter : g.player? pid = some voter) :
    (∀ g', voteOnProposal g team pid proposalId decision = .ok g' →
      proposalVotesIn g' team proposalId =
        some (recordSet proposal.votes pid decision)) ∧
    (proposal.kind = .end_turn →
      ∃ g', voteOnProposal g team pid proposalId decision = .ok g' ∧
        (proposalStatusIn g' team proposalId = some .accepted ↔
          tallyAccepts (recordSet proposal.votes pid decision) ≥
            requiredVotes ((operativeCount g team : Int) - 1))) := by
  have hv := voteOnProposal_eq g team pid proposalId decision proposal voter
    hmem hfind hpend hown hvoter
  constructor
  · intro g' hok
    rw [hv] at hok
    by_cases hA : tallyAccepts (recordSet proposal.votes pid decision) ≥
        requiredVotes ((operativeCount g team : Int) - 1)
    · rw [if_pos hA] at hok
      by_cases hk : proposal.kind = .guess
      · rw [if_pos hk] at hok
        obtain ⟨hr, hb⟩ := resolveGuess_proposals _ _ _ _ hok
        rw [proposalVotesIn_congr g'
          (votedStatusState g team pid proposalId decision voter .accepted)
          hr hb]
        exact votesIn_votedStatusState g team pid proposalId decision voter
          .accepted proposal hfind
      · rw [if_neg hk] at hok
        simp only [Except.ok.injEq] at hok
        subst hok
        rw [proposalVotesIn_congr _
          (votedStatusState g team pid proposalId decision voter .accepted)
          (by simp) (by simp)]
        exact votesIn_votedStatusState g team pid proposalId decision voter
          .accepted proposal hfind
    · rw [if_neg hA] at hok
      by_cases hR : 2 * tallyRejects (recordSet proposal.votes pid decision) >
          (operativeCount g team : Int) - 1
      · rw [if_pos hR] at hok
        simp only [Except.ok.injEq] at hok
        subst hok
        rw [proposalVotesIn_congr _
          (votedStatusState g team pid proposalId decision voter .rejected)
          (by simp) (by simp)]
        exact votesIn_votedStatusState g team pid proposalId decision voter
          .rejected proposal hfind
      · rw [if_neg hR] at hok
        simp only [Except.ok.injEq] at hok
        subst hok
        exact votesIn_votedState g team pid proposalId decision voter
          proposal hfind
  · intro hk
    have hkg : ¬ proposal.kind = .guess := by simp [hk]
    by_cases hA : tallyAccepts (recordSet proposal.votes pid decision) ≥
        requiredVotes ((operativeCount g team : Int) - 1)
    · refine ⟨_, by rw [hv, if_pos hA, if_neg hkg], ?_⟩
      rw [proposalStatusIn_congr _
        (votedStatusState g team pid proposalId decision voter .accepted)
        (by simp) (by simp),
        statusIn_votedStatusState g team pid proposalId decision voter
          .accepted proposal hfind]
      simp [hA]
    · by_cases hR : 2 * tallyRejects (recordSet proposal.votes pid decision) >
          (operativeCount g team : Int) - 1
      · refine ⟨_, by rw [hv, if_neg hA, if_pos hR], ?_⟩
        rw [proposalStatusIn_congr _
          (votedStatusState g team pid proposalId decision voter .rejected)
          (by simp) (by simp),
          statusIn_votedStatusState g team pid proposalId decision voter
            .rejected proposal hfind]
        simp [hA]
      · refine ⟨_, by rw [hv, if_neg hA, if_neg hR], ?_⟩
        rw [statusIn_votedState g team pid proposalId decision voter proposal
          hfind, hpend]
        simp [hA]

/-- A pending end-turn proposal by `r1`. -/
def spymEndTurnP : Proposal :=
  { id := "p2", team := .red, kind := .end_turn, payloadWord := none,
    status := .pending, createdBy := "r1", votes := [] }

/-- `baseGame` in red's guess phase with `spymEndTurnP` pending. -/
def spymGame : GameState :=
  { baseGame with
    turn := { activeTeam := .red, phase := .guess,
              hintWord := some "fruit", hintCount := some 2,
              guessesMade := 0, maxGuesses := 3 }
    redProposals := [spymEndTurnP] }

/-- Concrete instance of `c10_any_member_votes`: red's **spymaster** `rs`
(not an operative, hence excluded from `voterCount = 1`) accept-votes the
pending end-turn proposal and thereby pushes it to accepted. -/
theorem c10_any_member_votes_witness :
    ∃ g', voteOnProposal spymGame .red "rs" "p2" .accept = .ok g' ∧
      proposalStatusIn g' .red "p2" = some .accepted := by
  obtain ⟨g', hok, hiff⟩ :=
    (c10_any_member_votes spymGame .red "rs" "p2" .accept spymEndTurnP
      redSpy (by decide) (by decide) (by decide) (by decide)
      (by decide)).2 rfl
  exact ⟨g', hok, hiff.mpr (by decide)⟩

/-- A pending guess proposal for `apple` by `r1` (used for the post-game
vote scenario). -/
def c3Proposal : Proposal :=
  { id := "p3", team := .red, kind := .guess, payloadWord := some "apple",
    status := .pending, createdBy := "r1", votes := [] }

/-- An ended game (blue already won) in which red's guess proposal is still
pending — reachable, e.g., when red's turn was forfeited over a pending
proposal (forfeiture clears no proposals) and blue then won. -/
def c3Game : GameState :=
  { baseGame with
    cards := [ { word := "apple", owner := .red, revealed := false },
               { word := "bolt", owner := .blue, revealed := false },
               { word := "dagger", owner := .assassin, revealed := false } ]
    turn := { activeTeam := .red, phase := .guess, hintWord := some "fruit",
              hintCount := some 1, guessesMade := 0, maxGuesses := 2 }
    redProposals := [c3Proposal]
    winner := some .blue
    loserReason := some "red hit the assassin!" }

/-- **C3** (claimed): every mutating entry point — `submitHint`,
`createProposal`, `voteOnProposal` and the forfeiture transition — checks
for an ended game first, so no card can be revealed and the winner cannot
change after the game has ended.  **Refuted by the code**: `submitHint` and
`createProposal` do reject (`Game is over.`), but `voteOnProposal` and
`forfeitTurn` have no ended-game check at all: on `c3Game` (winner already
blue) `r2`'s accept vote on the still-pending proposal is processed, the
`apple` card is revealed, and `finishGame` runs again, overwriting the
winner from blue to red; `forfeitTurn` likewise still mutates the phase. -/
theorem c3_no_ended_check_in_vote :
    c3Game.winner = some .blue ∧
    submitHint c3Game .red "rs" "ocean" 1 none = .error .gameOver ∧
    createProposal c3Game .red "r1" .end_turn none "x" =
      .error .gameOver ∧
    exOk (voteOnProposal c3Game .red "r2" "p3" .accept) = true ∧
    (exGet c3Game (voteOnProposal c3Game .red "r2" "p3" .accept)).winner =
      some .red ∧
    ((exGet c3Game (voteOnProposal c3Game .red "r2" "p3" .accept)).cards.any
      (fun c => c.word = "apple" ∧ c.revealed)) = true ∧
    (forfeitTurn c3Game .red "reason").turn.phase = .banter := by
  refine ⟨rfl, by rfl, by rfl, by decide, by decide, by decide, by decide⟩

/-- **C6**: at most one proposal per team is pending at any time: a fresh
game has none, every successful store operation preserves the bound (so
every store-reachable state satisfies it), and `createProposal` in the
presence of a pending proposal fails with `pendingProposalExists` — except
that an identical-word guess (case-insensitively) from a seat other than
the pending proposal's creator is converted into an accept vote on it,
creating no new proposal (the proposal list's length is unchanged). -/
theorem c6_pending_mutual_exclusion :
    (∀ g : GameState, g.redProposals = [] → g.blueProposals = [] →
      atMostOnePending g) ∧
    (∀ g g' : GameState, atMostOnePending g → StoreStep g g' →
      atMostOnePending g') ∧
    (∀ g g' : GameState, atMostOnePending g →
      Relation.ReflTransGen StoreStep g g' → atMostOnePending g') ∧
    (∀ (g : GameState) (team : TeamColor) (pid : String)
        (kind : ProposalKind) (payloadWord : Option String)
        (newId : String) (pp : Proposal),
      isTeamMember g team pid = true → g.winner = none →
      g.turn.activeTeam = team → g.turn.phase = .guess →
      (g.proposalsOf team).find? (fun p => p.status = .pending) = some pp →
      ¬ (kind = .guess ∧ pp.kind = .guess ∧
        payloadWord.map (fun w => jsToLower (jsTrim w)) =
          pp.payloadWord.map jsToLower ∧ pp.createdBy ≠ pid) →
      createProposal g team pid kind payloadWord newId =
        .error .pendingProposalExists) ∧
    (∀ (g : GameState) (team : TeamColor) (pid : String)
        (payloadWord : Option String) (newId : String) (pp : Proposal)
        (player : Player),
      isTeamMember g team pid = true → g.winner = none →
      g.turn.activeTeam = team → g.turn.phase = .guess →
      (g.proposalsOf team).find? (fun p => p.status = .pending) = some pp →
      pp.kind = .guess →
      payloadWord.map (fun w => jsToLower (jsTrim w)) =
        pp.payloadWord.map jsToLower →
      pp.createdBy ≠ pid →
      g.player? pid = some player →
      createProposal g team pid .guess payloadWord newId =
        voteOnProposal (convMsgState g team pid payloadWord pp player)
          team pid pp.id .accept ∧
      (∀ g', createProposal g team pid .guess payloadWord newId = .ok g' →
        (g'.proposalsOf team).length = (g.proposalsOf team).length)) := by
  have hpres : ∀ g g' : GameState, atMostOnePending g → StoreStep g g' →
      atMostOnePending g' := by
    intro g g' hinv hs
    cases hs with
    | chat team pid content _ _ h =>
      obtain ⟨hr, hb⟩ := postChatMessage_ok_proposals _ _ _ _ _ h
      intro t
      rw [proposalsOf_congr g' g hr hb t]
      exact hinv t
    | hint team pid word count targets _ _ h =>
      obtain ⟨hr, hb⟩ := submitHint_ok_proposals _ _ _ _ _ _ _ h
      intro t
      rw [proposalsOf_congr g' g hr hb t]
      exact hinv t
    | banter _ _ h =>
      obtain ⟨hr, hb⟩ := endBanter_ok_proposals _ _ h
      intro t
      rw [proposalsOf_congr g' g hr hb t]
      exact hinv t
    | forfeit team reason _ _ h =>
      subst h
      intro t
      rw [proposalsOf_congr _ g (forfeitTurn_proposals g team reason).1
        (forfeitTurn_proposals g team reason).2 t]
      exact hinv t
    | vote team pid proposalId decision _ _ h =>
      obtain ⟨_, _, _, _, _, _, _, hother, hshape⟩ :=
        voteOnProposal_ok_shape _ _ _ _ _ _ h
      intro t
      rcases team_eq_or_other t team with rfl | rfl
      · rcases hshape with hsh | ⟨st, hst, hsh⟩
        · rw [hsh, pendingCount_setProposalVote]
          exact hinv _
        · rw [hsh]
          have h1 := pendingCount_setProposalStatus_le
            (setProposalVote (g.proposalsOf t) proposalId pid decision)
            proposalId st hst
          have h2 := pendingCount_setProposalVote (g.proposalsOf t)
            proposalId pid decision
          have h3 := hinv t
          omega
      · rw [hother]
        exact hinv _
    | propose team pid kind payloadWord newId _ _ h =>
      obtain ⟨hother, hbound⟩ := createProposal_ok_pendingBound _ _ _ _ _ _ _ h
      intro t
      rcases team_eq_or_other t team with rfl | rfl
      · rcases hbound with h1 | h1
        · exact h1
        · exact Nat.le_trans h1 (hinv t)
      · rw [hother]
        exact hinv _
  refine ⟨?_, hpres, ?_, ?_, ?_⟩
  · intro g hr hb t
    cases t <;> simp [GameState.proposalsOf, hr, hb, pendingCount]
  · intro g g' hinv hrt
    induction hrt with
    | refl => exact hinv
    | tail _ hbc ih => exact hpres _ _ ih hbc
  · intro g team pid kind payloadWord newId pp hm hnw ha hp hpe hnc
    exact createProposal_pending_reject_eq g team pid kind payloadWord newId
      pp hm hnw ha hp hpe hnc
  · intro g team pid payloadWord newId pp player hm hnw ha hp hpe hpk hwd
      hot hpl
    have hconv := createProposal_pending_convert_eq g team pid payloadWord
      newId pp player hm hnw ha hp hpe hpk hwd hot hpl
    refine ⟨hconv, ?_⟩
    intro g' hok
    rw [hconv] at hok
    obtain ⟨_, _, _, _, _, _, _, _, hshape⟩ :=
      voteOnProposal_ok_shape _ _ _ _ _ _ hok
    rcases hshape with hsh | ⟨st, _, hsh⟩
    · rw [hsh, length_setProposalVote, convMsgState_proposalsOf]
    · rw [hsh, length_setProposalStatus, length_setProposalVote,
        convMsgState_proposalsOf]

/-- Concrete instance of `c6_pending_mutual_exclusion`: on `votingGame`
(one pending guess proposal for `apple` by `r1`), `r2` proposing a
different word is rejected, while `r2` proposing `APPLE` again is folded
into an accept vote and adds no proposal. -/
theorem c6_pending_mutual_exclusion_witness :
    atMostOnePending baseGame ∧
    createProposal votingGame .red "r2" .end_turn none "px" =
      .error .pendingProposalExists ∧
    (∀ g', createProposal votingGame .red "r2" .guess (some "APPLE") "px" =
        .ok g' →
      (g'.proposalsOf .red).length =
        (votingGame.proposalsOf .red).length) := by
  refine ⟨?_, ?_, ?_⟩
  · exact c6_pending_mutual_exclusion.1 baseGame rfl rfl
  · exact c6_pending_mutual_exclusion.2.2.2.1 votingGame .red "r2"
      .end_turn none "px" votingP1 (by decide) rfl rfl rfl (by decide)
      (by decide)
  · exact (c6_pending_mutual_exclusion.2.2.2.2 votingGame .red "r2"
      (some "APPLE") "px" votingP1 redOp2 (by decide) rfl rfl rfl
      (by decide) (by decide) (by decide) (by decide) (by decide)).2

/-- `runAttempts` on a vote response never lowers the failure counter (it
either keeps it or, when the forced-vote guard fires on the wrong proposal,
increments it). -/
theorem runAttempts_vote_failures (team : TeamColor) (pid : String)
    (player : Player) (pending : List Proposal) (boardWords : List String)
    (fid : String) (fuel : Nat) (g : GameState) (ts : TeamTurnState)
    (msg pidArg : String) (d : VoteDecision) (rest : List AgentResp) :
    ts.failures ≤ (runAttempts team pid player pending boardWords fid
      (fuel + 1) g ts (⟨msg, .vote pidArg d⟩ :: rest)).ts.failures := by
  unfold runAttempts
  dsimp only []
  repeat' split
  all_goals dsimp only []
  all_goals omega

set_option maxHeartbeats 2000000 in
/-- **C8**: the scheduler failure counter (i) resets to 0 exactly when a
seat's propose-guess action succeeds with a word not previously proposed
this turn — a successful proposal of an already-proposed word leaves the
counter untouched; (ii) is never reset by a vote response (any vote path
keeps or increments it); and (iii) a conversation round whose speaker step
ends with the counter at 6 or more forfeits the turn on the spot and
returns `false`. -/
theorem c8_failure_counter :
    (∀ (g g1 g2 : GameState) (ts : TeamTurnState) (team : TeamColor)
        (pid w msg fid : String) (player : Player),
      g.winner = none →
      g.turn.activeTeam = team →
      g.turn.phase = .guess →
      g.player? pid = some player →
      player.type = .llm →
      player.role = .operative →
      ((g.proposalsOf team).filter (fun p => p.status = .pending)).find?
        (fun p => p.createdBy ≠ pid) = none →
      (if msg ≠ "" ∧ msg ≠ "..." then postChatMessage g team player.id msg
        else .ok g) = .ok g1 →
      createProposal g1 team player.id .guess (some w) fid = .ok g2 →
      runOnePlayer g ts team pid [⟨msg, .proposeGuess w⟩] fid =
        ⟨g2,
         { locked := ts.locked
           failures := if ts.proposedWords.contains (jsToLower w) then
             ts.failures else 0
           proposedWords := if ts.proposedWords.contains (jsToLower w) then
             ts.proposedWords else ts.proposedWords ++ [jsToLower w] },
         true, []⟩) ∧
    (∀ (g : GameState) (ts : TeamTurnState) (team : TeamColor)
        (pid msg pidArg fid : String) (d : VoteDecision)
        (rest : List AgentResp),
      ts.failures ≤
        (runOnePlayer g ts team pid (⟨msg, .vote pidArg d⟩ :: rest)
          fid).ts.failures) ∧
    (∀ (team : TeamColor) (allSpeakers rest : List Player) (player : Player)
        (s : SpeakerState),
      s.game.winner = none →
      s.game.turn.activeTeam = team →
      s.spoke.contains player.id = false →
      6 ≤ (speakerStep team allSpeakers player s).ts.failures →
      roundLoop team allSpeakers (player :: rest) s =
        ⟨forfeitTurn (speakerStep team allSpeakers player s).game team
          (failureForfeitMsg team),
         (speakerStep team allSpeakers player s).ts, false⟩) := by
  refine ⟨?_, ?_, ?_⟩
  · intro g g1 g2 ts team pid w msg fid player hw hactive hphase hplayer
      hllm hrole hmv hpost hcreate
    unfold runOnePlayer
    rw [if_neg (by simp [hw]), if_neg (by simp [hactive]), hplayer]
    dsimp only []
    rw [if_neg (by simp [hllm]), if_neg (by simp [hrole])]
    rw [show (if player.role = PlayerRole.spymaster ∧
        g.turn.phase = TurnPhase.hint then 5 else 1) = 1 from
      if_neg (by simp [hrole])]
    unfold runAttempts
    dsimp only []
    rw [if_neg (by
      rw [if_pos ⟨hphase, hrole⟩, hmv]
      simp)]
    rw [hpost]
    dsimp only []
    rw [hcreate]
    dsimp only []
    by_cases hnov : ts.proposedWords.contains (jsToLower w) = true
    · rw [if_pos hnov, if_pos hnov, if_pos hnov]
    · rw [if_neg hnov, if_neg hnov, if_neg hnov]
  · intro g ts team pid msg pidArg fid d rest
    unfold runOnePlayer
    by_cases hw : g.winner.isSome = true
    case pos => rw [if_pos hw]
    rw [if_neg hw]
    by_cases hb : ¬ g.turn.phase = TurnPhase.banter ∧
      g.turn.activeTeam ≠ team
    case pos => rw [if_pos hb]
    rw [if_neg hb]
    cases hp : g.player? pid with
    | none => exact Nat.le_refl _
    | some player =>
      dsimp only []
      by_cases ht : player.type = PlayerType.llm
      case neg => rw [if_pos ht]
      rw [if_neg (by simp [ht])]
      by_cases hs : player.role = PlayerRole.spymaster ∧
        (g.turn.phase = TurnPhase.guess ∨ g.turn.phase = TurnPhase.banter)
      case pos => rw [if_pos hs]
      rw [if_neg hs]
      by_cases hh : player.role = PlayerRole.spymaster ∧
        g.turn.phase = TurnPhase.hint
      · rw [if_pos hh]
        exact runAttempts_vote_failures _ pid player _ _ fid 4 g ts msg
          pidArg d rest
      · rw [if_neg hh]
        exact runAttempts_vote_failures _ pid player _ _ fid 0 g ts msg
          pidArg d rest
  · intro team allSpeakers rest player s hw hactive hspoke hfail
    unfold roundLoop
    rw [if_neg (by simp [hw])]
    rw [if_neg (by simp [hactive])]
    rw [if_neg (by simp only [hspoke]; exact Bool.false_ne_true)]
    rw [if_pos hfail]

/-- Concrete instance of `c8_failure_counter`: on `soloGame`, `b1`'s
successful proposal of the novel word `bolt` resets a failure count of 3 to
0; a vote response never lowers the counter; and a speaker step that leaves
the counter at 6 makes the round forfeit and return false. -/
theorem c8_failure_counter_witness :
    (runOnePlayer soloGame ⟨false, 3, ["metal"]⟩ .blue "b1"
      [⟨"...", .proposeGuess "bolt"⟩] "pg1").ts.failures = 0 ∧
    (⟨false, 3, ["metal"]⟩ : TeamTurnState).failures ≤
      (runOnePlayer soloGame ⟨false, 3, ["metal"]⟩ .blue "b1"
        [⟨"...", .vote "p9" .accept⟩] "pg1").ts.failures ∧
    roundLoop .blue [blueOp1] [blueOp1]
        ⟨soloGame, ⟨false, 6, []⟩, [], [], []⟩ =
      ⟨forfeitTurn (speakerStep .blue [blueOp1] blueOp1
          ⟨soloGame, ⟨false, 6, []⟩, [], [], []⟩).game .blue
        (failureForfeitMsg .blue),
       (speakerStep .blue [blueOp1] blueOp1
          ⟨soloGame, ⟨false, 6, []⟩, [], [], []⟩).ts, false⟩ := by
  refine ⟨?_, ?_, ?_⟩
  · rw [c8_failure_counter.1 soloGame soloGame
      (exGet soloGame (createProposal soloGame .blue "b1" .guess
        (some "bolt") "pg1"))
      ⟨false, 3, ["metal"]⟩ .blue "b1" "bolt" "..." "pg1" blueOp1
      rfl rfl rfl (by decide) rfl rfl rfl rfl rfl]
    decide
  · exact c8_failure_counter.2.1 soloGame ⟨false, 3, ["metal"]⟩ .blue "b1"
      "..." "p9" "pg1" .accept []
  · exact c8_failure_counter.2.2 .blue [blueOp1] [] blueOp1
      ⟨soloGame, ⟨false, 6, []⟩, [], [], []⟩ rfl rfl rfl (by decide)

/-- Concrete instance of `c2_delivery_gate`: from a queue-free gate with 3
credits one ack banks the 4th credit; 9 acks from a full gate stay at 5;
enabling gating and then waiting 5 times yields 5 immediate resolutions and
0 remaining credits. -/
theorem c2_delivery_gate_witness :
    (ackTts ⟨true, 3, []⟩).1.credits =
      (if 3 < BUFFER_SIZE then 3 + 1 else 3) ∧
    (iterAck 9 ⟨true, 5, []⟩).credits ≤ BUFFER_SIZE ∧
    (waitSeq (setTtsMode ⟨false, 0, []⟩ true).1 [10, 11, 12, 13, 14]).2 =
      [10, 11, 12, 13, 14].map (fun _ => WaitOutcome.immediate) := by
  refine ⟨(c2_delivery_gate.1 ⟨true, 3, []⟩ rfl).1, ?_, ?_⟩
  · exact c2_delivery_gate.2.1 9 ⟨true, 5, []⟩ (by decide)
  · exact (c2_delivery_gate.2.2 ⟨false, 0, []⟩ [10, 11, 12, 13, 14]
      (by decide)).1

end Clueless
